import Mathlib

/-!
# Payroll server (`server.js`): preview, disburse and monthly report

A shallow embedding of the three payroll route handlers of `server.js`
(`GET /preview-pay/:id`, `POST /disburse-pay/:id`, `GET /reports/monthly`) over
an explicit document store, followed by the properties proved about them.

Modelling conventions.

* The MongoDB collections are lists of documents inside a `Store`; a handler is
  a function from the store (and the clock readings it takes) to the store it
  leaves behind and the response it sends.
* A JavaScript number is a `JsNum`: a finite IEEE 754 binary64 value, held as
  the rational it denotes, `Infinity`, `-Infinity` or `NaN`.  `+`, `-` and `*`
  compute the exact result and round it to the nearest binary64 value, ties to
  even, overflowing to an infinity.  The two zeros are identified: no
  operation of the handlers tells them apart and both print as `0`.
* A `Number` path of a mongoose document is a `Field`: it may be missing
  (`undefined`), `null`, or hold a number, written as a rational literal and
  read as the binary64 value nearest to it.  Arithmetic applies `ToNumber`
  first, as `+=`, `*` and `-` do: `undefined` becomes `NaN`, `null` becomes `0`.
* A stored `Date` is its time value, the milliseconds since the epoch; a
  missing or `null` date path is `none`.  A `Date` object built by the
  constructor may be an Invalid Date (`JsDate`).
* A store call throws when mongoose cannot cast what it is given: a request
  string that is no ObjectId, an Invalid Date in a filter, a `NaN` on a
  `Number` path of a document to save.  The handler's `catch` then answers
  500 "Server error".  The cast of a string to an ObjectId, the clock and the
  local-time `Date` constructor are taken from a `Host`.
* The two `new Date()` calls of the disburse handler are two clock readings,
  `payNow` and `saveNow`.
-/

namespace PayrollServer

/-! ## JavaScript numbers -/

/-- A JavaScript number: a finite binary64 value (as a rational), an infinity,
or `NaN`. -/
inductive JsNum where
  | fin (q : ℚ)
  | posInf
  | negInf
  | nan
deriving DecidableEq

/-- The rational `2 ^ k` for an integer `k`. -/
def pow2 (k : Int) : ℚ :=
  if 0 ≤ k then ((2 ^ k.toNat : Nat) : ℚ) else 1 / ((2 ^ (-k).toNat : Nat) : ℚ)

/-- The loop of `natLog2`: halve `n` while it is at least 2, counting the
halvings. -/
def log2Loop : Nat → Nat → Nat → Nat
  | 0, _, count => count
  | fuel + 1, n, count => if 2 ≤ n then log2Loop fuel (n / 2) (count + 1) else count

/-- The position of the leading bit of a positive natural number. -/
def natLog2 (n : Nat) : Nat :=
  log2Loop n n 0

/-- The integer `e` with `2 ^ e ≤ a < 2 ^ (e + 1)`, for a positive rational. -/
def floorLog2 (a : ℚ) : Int :=
  let k : Int := (natLog2 a.num.natAbs : Int) - (natLog2 a.den : Int)
  if pow2 k ≤ a then k else k - 1

/-- The integer nearest to a non-negative rational, ties to the even one. -/
def roundHalfEven (x : ℚ) : Nat :=
  let f := x.floor.toNat
  let r := x - (f : ℚ)
  if r < 1 / 2 then f
  else if 1 / 2 < r then f + 1
  else if f % 2 = 0 then f else f + 1

/-- Rounding of an exact result to binary64: 53 significant bits, exponents
from -1022 (below which the spacing stays `2 ^ -1074`) to 1023, overflow to an
infinity. -/
def roundDouble (q : ℚ) : JsNum :=
  if q = 0 then JsNum.fin 0
  else
    let a := |q|
    let e := max (floorLog2 a) (-1022)
    let quantum := pow2 (e - 52)
    let r := (roundHalfEven (a / quantum) : ℚ) * quantum
    if pow2 1024 ≤ r then (if 0 < q then JsNum.posInf else JsNum.negInf)
    else JsNum.fin (if 0 < q then r else -r)

namespace JsNum

/-- JavaScript `isNaN` on a number. -/
def isNaN : JsNum → Bool
  | nan => true
  | _ => false

/-- A number that is neither `NaN` nor an infinity. -/
def isFinite : JsNum → Bool
  | fin _ => true
  | _ => false

/-- JavaScript `a < b` on numbers: false when either is `NaN`. -/
def lt : JsNum → JsNum → Bool
  | fin x, fin y => decide (x < y)
  | fin _, posInf => true
  | negInf, fin _ => true
  | negInf, posInf => true
  | _, _ => false

/-- JavaScript `a + b` on numbers. -/
def add : JsNum → JsNum → JsNum
  | fin x, fin y => roundDouble (x + y)
  | fin _, posInf => posInf
  | fin _, negInf => negInf
  | fin _, nan => nan
  | posInf, fin _ => posInf
  | posInf, posInf => posInf
  | posInf, negInf => nan
  | posInf, nan => nan
  | negInf, fin _ => negInf
  | negInf, posInf => nan
  | negInf, negInf => negInf
  | negInf, nan => nan
  | nan, _ => nan

/-- JavaScript `a - b` on numbers. -/
def sub : JsNum → JsNum → JsNum
  | fin x, fin y => roundDouble (x - y)
  | fin _, posInf => negInf
  | fin _, negInf => posInf
  | fin _, nan => nan
  | posInf, fin _ => posInf
  | posInf, posInf => nan
  | posInf, negInf => posInf
  | posInf, nan => nan
  | negInf, fin _ => negInf
  | negInf, posInf => negInf
  | negInf, negInf => nan
  | negInf, nan => nan
  | nan, _ => nan

/-- The product of an infinity of sign `positive` with a finite number. -/
def mulInf (positive : Bool) (y : ℚ) : JsNum :=
  if y = 0 then nan
  else if decide (0 < y) = positive then posInf else negInf

/-- JavaScript `a * b` on numbers. -/
def mul : JsNum → JsNum → JsNum
  | fin x, fin y => roundDouble (x * y)
  | fin x, posInf => mulInf true x
  | fin x, negInf => mulInf false x
  | fin _, nan => nan
  | posInf, fin y => mulInf true y
  | posInf, posInf => posInf
  | posInf, negInf => negInf
  | posInf, nan => nan
  | negInf, fin y => mulInf false y
  | negInf, posInf => negInf
  | negInf, negInf => posInf
  | negInf, nan => nan
  | nan, _ => nan

end JsNum

/-- The value read from a `Number` path of a mongoose document. -/
inductive Field where
  | undefined
  | null
  | val (q : ℚ)
deriving DecidableEq

/-- `ToNumber`, applied by the arithmetic operators to a value read from a
document: `undefined` is `NaN`, `null` is `0`, a number is itself. -/
def Field.toNumber : Field → JsNum
  | Field.undefined => JsNum.nan
  | Field.null => JsNum.fin 0
  | Field.val q => roundDouble q

/-- The time value of a valid JavaScript `Date`, in milliseconds since the
epoch. -/
abbrev Date := Int

/-- A `Date` object as a constructor returns it: `none` is an Invalid Date. -/
abbrev JsDate := Option Date

/-- A MongoDB ObjectId. -/
abbrev ObjectId := Nat

/-- What the handlers take from their host: mongoose's cast of a string to an
ObjectId (`none` when it throws a CastError), the calendar fields
`now.getMonth()` and `now.getFullYear()` of the report's clock reading, and the
local-time constructor
`new Date(year, monthIndex, day, hours, minutes, seconds, ms)`. -/
structure Host where
  castObjectId : String → Option ObjectId
  getMonth : Int
  getFullYear : Int
  newDate : Int → Int → Int → Int → Int → Int → Int → JsDate

/-! ## Schemas -/

/-- Model of `employeeSchema`. -/
structure Employee where
  _id : ObjectId
  name : Option String
  role : Option String
  pay_rate1 : Field
  pay_rate2 : Field
  last_payroll_date : Option Date
deriving DecidableEq

/-- Model of `workLogSchema`. -/
structure WorkLog where
  employeeId : Option ObjectId
  date : Option Date
  hours_payrate1 : Field
  hours_payrate2 : Field
  deduction : Field
deriving DecidableEq

/-- Model of `payrollSchema`: a stored Payroll document. -/
structure Payroll where
  employeeId : ObjectId
  totalHours : JsNum
  totalPay : JsNum
  deductions : JsNum
  netPay : JsNum
  payDate : Date
deriving DecidableEq

/-- The three collections. -/
structure Store where
  employees : List Employee
  workLogs : List WorkLog
  payrolls : List Payroll
deriving DecidableEq

/-! ## Store operations -/

/-- An `employeeId` as a handler puts it in a filter: a request string, or the
ObjectId of a document. -/
inductive IdValue where
  | str (s : String)
  | oid (o : ObjectId)

/-- The cast of a filter's `employeeId`; `none` when mongoose throws. -/
def IdValue.cast (host : Host) : IdValue → Option ObjectId
  | IdValue.str s => host.castObjectId s
  | IdValue.oid o => some o

/-- The query operators the handlers put on `date`: `$gt`, `$gte`, `$lte`, each
absent (`none`) or given a `Date` object. -/
structure DateQuery where
  gt : Option JsDate
  gte : Option JsDate
  lte : Option JsDate

/-- The cast of one operator of a date filter: the outer `none` is the
CastError mongoose throws for an Invalid Date, the inner `none` an absent
operator. -/
def castOperator : Option JsDate → Option (Option Date)
  | none => some none
  | some none => none
  | some (some t) => some (some t)

/-- Whether a stored `date` satisfies the (cast) operators; a missing date
matches no comparison operator. -/
def dateMatches (gt gte lte : Option Date) : Option Date → Bool
  | none => false
  | some d =>
    (match gt with | some b => decide (b < d) | none => true) &&
    (match gte with | some b => decide (b ≤ d) | none => true) &&
    (match lte with | some b => decide (d ≤ b) | none => true)

/-- Model of `Employee.findById(id)` on a request string: `none` when the cast
of the string throws, otherwise the document with that `_id`, if any. -/
def Employee.findById (host : Host) (db : Store) (id : String) : Option (Option Employee) :=
  match host.castObjectId id with
  | none => none
  | some oid => some (db.employees.find? (fun e => decide (e._id = oid)))

/-- Model of `Employee.find()`: every employee document. -/
def Employee.find (db : Store) : List Employee :=
  db.employees

/-- Model of `WorkLog.find` with an `employeeId` and a `date` condition: `none`
when the cast of the filter throws, otherwise the matching logs in collection
order. -/
def WorkLog.find (host : Host) (db : Store) (employeeId : IdValue) (date : DateQuery) :
    Option (List WorkLog) :=
  match employeeId.cast host, castOperator date.gt, castOperator date.gte,
    castOperator date.lte with
  | some oid, some gt, some gte, some lte =>
    some (db.workLogs.filter
      (fun log => decide (log.employeeId = some oid) && dateMatches gt gte lte log.date))
  | _, _, _, _ => none

/-- The object literal handed to `new Payroll(...)`. -/
structure PayrollFields where
  employeeId : String
  totalHours : JsNum
  totalPay : JsNum
  deductions : JsNum
  netPay : JsNum
  payDate : Date

/-- Model of `new Payroll(fields)` followed by `payroll.save()`: `none` when
the document is rejected, because `employeeId` is no ObjectId or a `Number`
path holds `NaN`; otherwise the store with the document inserted, and the
document. -/
def Payroll.save (host : Host) (db : Store) (fields : PayrollFields) : Option (Store × Payroll) :=
  match host.castObjectId fields.employeeId with
  | none => none
  | some oid =>
    if fields.totalHours.isNaN || fields.totalPay.isNaN || fields.deductions.isNaN ||
        fields.netPay.isNaN then none
    else
      let payroll : Payroll :=
        { employeeId := oid
          totalHours := fields.totalHours
          totalPay := fields.totalPay
          deductions := fields.deductions
          netPay := fields.netPay
          payDate := fields.payDate }
      some ({ db with payrolls := db.payrolls ++ [payroll] }, payroll)

/-- The update `employee.save()` sends after `last_payroll_date` was assigned:
the path is set on the stored document with that `_id`. -/
def setLastPayrollDate (id : ObjectId) (value : Date) : List Employee → List Employee
  | [] => []
  | e :: es =>
    if e._id = id then { e with last_payroll_date := some value } :: es
    else e :: setLastPayrollDate id value es

/-- Model of `employee.save()` in the disburse handler. -/
def Employee.save (db : Store) (employee : Employee) (value : Date) : Store :=
  { db with employees := setLastPayrollDate employee._id value db.employees }

/-! ## Responses -/

/-- What a handler sends: a JSON body with status 200, or a status with a
`message` body. -/
inductive Response (α : Type) where
  | ok (body : α)
  | error (status : Nat) (message : String)
deriving DecidableEq

/-- Body of a successful `GET /preview-pay/:id`. -/
structure PreviewResult where
  totalHours : JsNum
  totalPay : JsNum
  deductions : JsNum
  netPay : JsNum
  lastPayDate : Date
  previewDate : Date
deriving DecidableEq

/-- The time value of `new Date("2024-01-01")`: 2024-01-01T00:00:00.000Z. -/
def floorDate : Date := 1704067200000

/-! ## Handlers -/

/-- Model of `GET /preview-pay/:id`; `now` is the reading of `new Date()` for
`previewDate`.  Returns the store after the request and the response. -/
def previewPay (host : Host) (db : Store) (id : String) (now : Date) :
    Store × Response PreviewResult :=
  match Employee.findById host db id with
  | none => (db, Response.error 500 "Server error")
  | some none => (db, Response.error 404 "Employee not found")
  | some (some employee) =>
    let lastPayDate := employee.last_payroll_date.getD floorDate
    match WorkLog.find host db (IdValue.str id) ⟨some (some lastPayDate), none, none⟩ with
    | none => (db, Response.error 500 "Server error")
    | some logs =>
      let sums := logs.foldl
        (fun (acc : JsNum × JsNum × JsNum) log =>
          (acc.1.add log.hours_payrate1.toNumber,
           acc.2.1.add log.hours_payrate2.toNumber,
           acc.2.2.add log.deduction.toNumber))
        (JsNum.fin 0, JsNum.fin 0, JsNum.fin 0)
      let totalHours1 := sums.1
      let totalHours2 := sums.2.1
      let totalDeductions := sums.2.2
      let totalPay :=
        (totalHours1.mul employee.pay_rate1.toNumber).add
          (totalHours2.mul employee.pay_rate2.toNumber)
      let netPay := totalPay.sub totalDeductions
      (db, Response.ok
        { totalHours := totalHours1.add totalHours2
          totalPay := totalPay
          deductions := totalDeductions
          netPay := netPay
          lastPayDate := lastPayDate
          previewDate := now })

/-- Model of `POST /disburse-pay/:id`; `payNow` is the reading of `new Date()`
stored as `payDate`, `saveNow` the later reading assigned to
`last_payroll_date`.  Returns the store after the request and the response. -/
def disbursePay (host : Host) (db : Store) (id : String) (payNow saveNow : Date) :
    Store × Response Payroll :=
  match Employee.findById host db id with
  | none => (db, Response.error 500 "Server error")
  | some none => (db, Response.error 404 "Employee not found")
  | some (some employee) =>
    let lastPayDate := employee.last_payroll_date.getD floorDate
    match WorkLog.find host db (IdValue.str id) ⟨some (some lastPayDate), none, none⟩ with
    | none => (db, Response.error 500 "Server error")
    | some logs =>
      let sums := logs.foldl
        (fun (acc : JsNum × JsNum × JsNum) log =>
          (acc.1.add log.hours_payrate1.toNumber,
           acc.2.1.add log.hours_payrate2.toNumber,
           acc.2.2.add log.deduction.toNumber))
        (JsNum.fin 0, JsNum.fin 0, JsNum.fin 0)
      let totalHours1 := sums.1
      let totalHours2 := sums.2.1
      let totalDeductions := sums.2.2
      let totalPay :=
        (totalHours1.mul employee.pay_rate1.toNumber).add
          (totalHours2.mul employee.pay_rate2.toNumber)
      let netPay := totalPay.sub totalDeductions
      match Payroll.save host db
          { employeeId := id
            totalHours := totalHours1.add totalHours2
            totalPay := totalPay
            deductions := totalDeductions
            netPay := netPay
            payDate := payNow } with
      | none => (db, Response.error 500 "Server error")
      | some (db1, payroll) =>
        let db2 := Employee.save db1 employee saveNow
        (db2, Response.ok payroll)

/-! ### Monthly report -/

/-- The query of `GET /reports/monthly`; `month` and `year` hold the integer
`parseInt(month)` and `parseInt(year)` read, with `none` for `NaN`, and
`employeeId` the query string value, `none` when it is not given.  (An integer
too large for a binary64 value, which `parseInt` rounds, is far outside the
range of years and months for which the constructor returns a valid date.  A
repeated `employeeId` parameter, which Express delivers as an array, is not
modelled.) -/
structure ReportQuery where
  month : Option Int
  year : Option Int
  employeeId : Option String

/-- JavaScript `parsed || fallback` on a `parseInt` result: `NaN` and `0` are
falsy. -/
def orFallback (parsed : Option Int) (fallback : Int) : Int :=
  match parsed with
  | none => fallback
  | some n => if n = 0 then fallback else n

/-- One element of `results`. -/
structure ReportRow where
  employeeId : ObjectId
  name : Option String
  role : Option String
  month : Int
  year : Int
  totalHours : JsNum
  totalPay : JsNum
  totalDeductions : JsNum
  netPay : JsNum
deriving DecidableEq

/-- Body of `GET /reports/monthly`. -/
structure MonthlyReport where
  results : List ReportRow
  totalExpense : JsNum
deriving DecidableEq

/-- The `for (const emp of employees)` loop of the report handler: the state is
`(totalExpense, results)`, and `none` is an iteration whose `WorkLog.find`
throws. -/
def reportLoop (host : Host) (db : Store) (finalMonth finalYear : Int)
    (startDate endDate : JsDate) (employees : List Employee) :
    Option (JsNum × List ReportRow) :=
  employees.foldlM
    (fun (state : JsNum × List ReportRow) emp =>
      match WorkLog.find host db (IdValue.oid emp._id)
          ⟨none, some startDate, some endDate⟩ with
      | none => none
      | some logs =>
        let sums := logs.foldl
          (fun (acc : JsNum × JsNum × JsNum) log =>
            (acc.1.add log.hours_payrate1.toNumber,
             acc.2.1.add log.hours_payrate2.toNumber,
             acc.2.2.add log.deduction.toNumber))
          (JsNum.fin 0, JsNum.fin 0, JsNum.fin 0)
        let totalHours1 := sums.1
        let totalHours2 := sums.2.1
        let totalDeductions := sums.2.2
        let totalPay :=
          (totalHours1.mul emp.pay_rate1.toNumber).add (totalHours2.mul emp.pay_rate2.toNumber)
        let netPay := totalPay.sub totalDeductions
        some (state.1.add netPay,
          state.2 ++
            [{ employeeId := emp._id
               name := emp.name
               role := emp.role
               month := finalMonth
               year := finalYear
               totalHours := totalHours1.add totalHours2
               totalPay := totalPay
               totalDeductions := totalDeductions
               netPay := netPay }]))
    (JsNum.fin 0, [])

/-- Model of `GET /reports/monthly`.  Returns the store after the request and
the response. -/
def monthlyReport (host : Host) (db : Store) (query : ReportQuery) :
    Store × Response MonthlyReport :=
  let currentMonth := host.getMonth + 1
  let currentYear := host.getFullYear
  let finalMonth := orFallback query.month currentMonth
  let finalYear := orFallback query.year currentYear
  let startDate := host.newDate finalYear (finalMonth - 1) 1 0 0 0 0
  let endDate := host.newDate finalYear finalMonth 0 23 59 59 999
  match query.employeeId with
  | some employeeId =>
    if employeeId ≠ "" ∧ employeeId ≠ "all" then
      match Employee.findById host db employeeId with
      | none => (db, Response.error 500 "Server error")
      | some none => (db, Response.ok { results := [], totalExpense := JsNum.fin 0 })
      | some (some oneEmp) =>
        match reportLoop host db finalMonth finalYear startDate endDate [oneEmp] with
        | none => (db, Response.error 500 "Server error")
        | some out => (db, Response.ok { results := out.2, totalExpense := out.1 })
    else
      match reportLoop host db finalMonth finalYear startDate endDate (Employee.find db) with
      | none => (db, Response.error 500 "Server error")
      | some out => (db, Response.ok { results := out.2, totalExpense := out.1 })
  | none =>
    match reportLoop host db finalMonth finalYear startDate endDate (Employee.find db) with
    | none => (db, Response.error 500 "Server error")
    | some out => (db, Response.ok { results := out.2, totalExpense := out.1 })

/-! ## Vocabulary of the statements -/

/-- A rational that is an integer multiple of `2 ^ -1074`, as every finite
binary64 value is. -/
def onGrid (q : ℚ) : Prop :=
  ∃ n : ℤ, q = n * pow2 (-1074)

/-- A number whose value, when finite, is an integer multiple of `2 ^ -1074`. -/
def JsNum.onGrid : JsNum → Prop
  | JsNum.fin q => PayrollServer.onGrid q
  | _ => True

/-- The JavaScript sum of a list of numbers: `0`, then `+=` for each element in
order. -/
def jsSum (xs : List JsNum) : JsNum :=
  xs.foldl JsNum.add (JsNum.fin 0)

/-- The JavaScript sum of `hours_payrate1` over a list of logs. -/
def jsHours1 (logs : List WorkLog) : JsNum :=
  jsSum (logs.map (fun log => log.hours_payrate1.toNumber))

/-- The JavaScript sum of `hours_payrate2` over a list of logs. -/
def jsHours2 (logs : List WorkLog) : JsNum :=
  jsSum (logs.map (fun log => log.hours_payrate2.toNumber))

/-- The JavaScript sum of `deduction` over a list of logs. -/
def jsDeductions (logs : List WorkLog) : JsNum :=
  jsSum (logs.map (fun log => log.deduction.toNumber))

/-- The total hours over a list of logs: the sum of the first-rate hours plus
the sum of the second-rate hours. -/
def jsTotalHours (logs : List WorkLog) : JsNum :=
  (jsHours1 logs).add (jsHours2 logs)

/-- The gross pay over a list of logs at the rates of an employee:
(sum of first-rate hours) * pay_rate1 + (sum of second-rate hours) * pay_rate2. -/
def jsTotalPay (employee : Employee) (logs : List WorkLog) : JsNum :=
  ((jsHours1 logs).mul employee.pay_rate1.toNumber).add
    ((jsHours2 logs).mul employee.pay_rate2.toNumber)

/-- The net pay over a list of logs: gross pay minus the sum of deductions. -/
def jsNetPay (employee : Employee) (logs : List WorkLog) : JsNum :=
  (jsTotalPay employee logs).sub (jsDeductions logs)

/-- Whether one of the four totals over a list of logs is `NaN`. -/
def hasNaNTotal (employee : Employee) (logs : List WorkLog) : Bool :=
  (jsTotalHours logs).isNaN || (jsTotalPay employee logs).isNaN ||
    (jsDeductions logs).isNaN || (jsNetPay employee logs).isNaN

/-- The lower bound of the unpaid window of an employee: its
`last_payroll_date`, or 2024-01-01 when it has none. -/
def unpaidFloor (employee : Employee) : Date :=
  match employee.last_payroll_date with
  | some d => d
  | none => 1704067200000

/-- Whether a log lies in the unpaid window of employee `id` with lower bound
`bound`: it names that employee and carries a date strictly after the bound. -/
def inUnpaidWindow (id : ObjectId) (bound : Date) (log : WorkLog) : Bool :=
  decide (log.employeeId = some id) &&
    (match log.date with
     | some d => decide (bound < d)
     | none => false)

/-- Whether a log lies in the month window of employee `id`: it names that
employee and carries a date from `startDate` to `endDate`, both included. -/
def inMonthWindow (id : ObjectId) (startDate endDate : Date) (log : WorkLog) : Bool :=
  decide (log.employeeId = some id) &&
    (match log.date with
     | some d => decide (startDate ≤ d) && decide (d ≤ endDate)
     | none => false)

/-- The logs the preview and disburse handlers select for an employee. -/
def unpaidLogs (db : Store) (employee : Employee) : List WorkLog :=
  db.workLogs.filter (inUnpaidWindow employee._id (unpaidFloor employee))

/-- The logs the report handler selects for an employee and a valid window. -/
def monthLogs (db : Store) (startDate endDate : Date) (emp : Employee) : List WorkLog :=
  db.workLogs.filter (inMonthWindow emp._id startDate endDate)

/-- The employees a report query selects: `none` when the lookup of a specific
id throws, all employees when `employeeId` is not given, empty or "all", and
otherwise the employee with that id, if any. -/
def selectedEmployees (host : Host) (db : Store) : Option String → Option (List Employee)
  | none => some db.employees
  | some employeeId =>
    if employeeId = "" ∨ employeeId = "all" then some db.employees
    else
      match host.castObjectId employeeId with
      | none => none
      | some oid => some (db.employees.find? (fun e => decide (e._id = oid))).toList

/-- The month window `(startDate, endDate)` a report query resolves to. -/
def monthWindow (host : Host) (query : ReportQuery) : JsDate × JsDate :=
  (host.newDate (orFallback query.year host.getFullYear)
      (orFallback query.month (host.getMonth + 1) - 1) 1 0 0 0 0,
   host.newDate (orFallback query.year host.getFullYear)
      (orFallback query.month (host.getMonth + 1)) 0 23 59 59 999)

/-- The report row of one employee over the logs of a valid month window. -/
def reportRow (db : Store) (finalMonth finalYear : Int) (startDate endDate : Date)
    (emp : Employee) : ReportRow :=
  { employeeId := emp._id
    name := emp.name
    role := emp.role
    month := finalMonth
    year := finalYear
    totalHours := jsTotalHours (monthLogs db startDate endDate emp)
    totalPay := jsTotalPay emp (monthLogs db startDate endDate emp)
    totalDeductions := jsDeductions (monthLogs db startDate endDate emp)
    netPay := jsNetPay emp (monthLogs db startDate endDate emp) }

/-- The Payroll document the disburse handler builds for an employee over a
list of logs. -/
def payrollOf (employee : Employee) (logs : List WorkLog) (payNow : Date) : Payroll :=
  { employeeId := employee._id
    totalHours := jsTotalHours logs
    totalPay := jsTotalPay employee logs
    deductions := jsDeductions logs
    netPay := jsNetPay employee logs
    payDate := payNow }

/-- The body the preview handler builds for an employee over a list of logs. -/
def previewOf (employee : Employee) (logs : List WorkLog) (now : Date) : PreviewResult :=
  { totalHours := jsTotalHours logs
    totalPay := jsTotalPay employee logs
    deductions := jsDeductions logs
    netPay := jsNetPay employee logs
    lastPayDate := unpaidFloor employee
    previewDate := now }

/-- A missing field replaced by 0; any other field unchanged. -/
def Field.orZero : Field → Field
  | Field.undefined => Field.val 0
  | Field.null => Field.null
  | Field.val q => Field.val q

/-- A work log with each missing numeric field replaced by 0. -/
def WorkLog.zeroFilled (log : WorkLog) : WorkLog :=
  { log with
    hours_payrate1 := log.hours_payrate1.orZero
    hours_payrate2 := log.hours_payrate2.orZero
    deduction := log.deduction.orZero }

/-- A store with each missing numeric field of each work log replaced by 0. -/
def Store.zeroFilled (db : Store) : Store :=
  { db with workLogs := db.workLogs.map WorkLog.zeroFilled }

/-! ## A host in UTC and example stores -/

/-- The value of a hexadecimal digit, given its code point. -/
def hexDigit (c : Char) : Option Nat :=
  if 48 ≤ c.toNat ∧ c.toNat ≤ 57 then some (c.toNat - 48)
  else if 97 ≤ c.toNat ∧ c.toNat ≤ 102 then some (c.toNat - 87)
  else if 65 ≤ c.toNat ∧ c.toNat ≤ 70 then some (c.toNat - 55)
  else none

/-- A cast of strings to ObjectIds: a string of 24 hexadecimal digits is the
ObjectId with that value, any other string is rejected. -/
def hexObjectId (s : String) : Option ObjectId :=
  if s.length = 24 then
    s.toList.foldl
      (fun acc c =>
        match acc, hexDigit c with
        | some a, some d => some (16 * a + d)
        | _, _ => none)
      (some 0)
  else none

/-- Day number, counted from 1970-01-01, of the first day of month `month`
(0-based, any integer) of year `year` in the proleptic Gregorian calendar. -/
def utcMonthStart (year month : Int) : Int :=
  let ym := year + month / 12
  let mn := month % 12
  let y := if mn < 2 then ym - 1 else ym
  let era := y / 400
  let yoe := y - era * 400
  let mp := (mn + 10) % 12
  let doy := (153 * mp + 2) / 5
  let doe := yoe * 365 + yoe / 4 - yoe / 100 + doy
  era * 146097 + doe - 719468

/-- The constructor `new Date(year, monthIndex, day, hours, minutes, seconds, ms)`
on a host whose local time zone is UTC: an Invalid Date when the time value
leaves the range of 8640000000000000 ms around the epoch. -/
def utcDate (year month day hours minutes seconds ms : Int) : JsDate :=
  let yr := if 0 ≤ year ∧ year ≤ 99 then 1900 + year else year
  let t := (utcMonthStart yr month + day - 1) * 86400000 + hours * 3600000 + minutes * 60000 +
    seconds * 1000 + ms
  if -8640000000000000 ≤ t ∧ t ≤ 8640000000000000 then some t else none

/-- A host in UTC whose clock reads a day of November 2026 and whose ObjectIds
are written as 24 hexadecimal digits. -/
def utcHost : Host :=
  { castObjectId := hexObjectId, getMonth := 10, getFullYear := 2026, newDate := utcDate }

/-- The request string of ObjectId 1. -/
def annId : String := "000000000000000000000001"

/-- The request string of ObjectId 2. -/
def bobId : String := "000000000000000000000002"

/-- An employee paid 10 and 15 per hour, never paid so far. -/
def ann : Employee :=
  { _id := 1, name := some "Ann", role := some "clerk", pay_rate1 := Field.val 10,
    pay_rate2 := Field.val 15, last_payroll_date := none }

/-- A store with `ann` and two of her logs, of 1 and 2 February 2024:
5 hours at the first rate with a deduction of 2, and 4 hours at the second. -/
def exampleStore : Store :=
  { employees := [ann]
    workLogs :=
      [{ employeeId := some 1, date := some 1706745600000, hours_payrate1 := Field.val 5,
         hours_payrate2 := Field.val 0, deduction := Field.val 2 },
       { employeeId := some 1, date := some 1706832000000, hours_payrate1 := Field.val 0,
         hours_payrate2 := Field.val 4, deduction := Field.val 0 }]
    payrolls := [] }

/-- The report query `month=2&year=2024`, with no `employeeId`. -/
def februaryQuery : ReportQuery :=
  { month := some 2, year := some 2024, employeeId := none }

/-- An employee paid 20 and 30 per hour, last paid on 1 February 2024. -/
def bob : Employee :=
  { _id := 2, name := some "Bob", role := some "driver", pay_rate1 := Field.val 20,
    pay_rate2 := Field.val 30, last_payroll_date := some 1706745600000 }

/-- A store around the window bound of `bob`: a log of his dated exactly at
the bound, one a millisecond later, one without a date, and a log of another
employee. -/
def windowStore : Store :=
  { employees := [ann, bob]
    workLogs :=
      [{ employeeId := some 2, date := some 1706745600000, hours_payrate1 := Field.val 8,
         hours_payrate2 := Field.val 0, deduction := Field.val 0 },
       { employeeId := some 2, date := some 1706745600001, hours_payrate1 := Field.val 3,
         hours_payrate2 := Field.val 1, deduction := Field.val 1 },
       { employeeId := some 2, date := none, hours_payrate1 := Field.val 6,
         hours_payrate2 := Field.val 6, deduction := Field.val 6 },
       { employeeId := some 1, date := some 1709251200000, hours_payrate1 := Field.val 7,
         hours_payrate2 := Field.val 7, deduction := Field.val 7 }]
    payrolls := [] }

/-- A store with `ann` and one log of hers dated 1 January 2030: 5 hours at the
first rate with a deduction of 2. -/
def futureLogStore : Store :=
  { employees := [ann]
    workLogs :=
      [{ employeeId := some 1, date := some 1893456000000, hours_payrate1 := Field.val 5,
         hours_payrate2 := Field.val 0, deduction := Field.val 2 }]
    payrolls := [] }

/-- A store whose employee 1 has the first pay rate `1e999`, which reads as
`Infinity`, and one log of 1 February 2024: 5 hours at the first rate with a
deduction of 2. -/
def infiniteRateStore : Store :=
  { employees :=
      [{ _id := 1, name := some "Ann", role := some "clerk",
         pay_rate1 := Field.val ((10 ^ 999 : Nat) : ℚ), pay_rate2 := Field.val 15,
         last_payroll_date := none }]
    workLogs :=
      [{ employeeId := some 1, date := some 1706745600000, hours_payrate1 := Field.val 5,
         hours_payrate2 := Field.val 0, deduction := Field.val 2 }]
    payrolls := [] }

/-- The example store with `hours_payrate1` missing from the second log. -/
def missingFieldStore : Store :=
  { employees := [ann]
    workLogs :=
      [{ employeeId := some 1, date := some 1706745600000, hours_payrate1 := Field.val 5,
         hours_payrate2 := Field.val 0, deduction := Field.val 2 },
       { employeeId := some 1, date := some 1706832000000, hours_payrate1 := Field.undefined,
         hours_payrate2 := Field.val 4, deduction := Field.val 0 }]
    payrolls := [] }

/-- The example store with one more log of `ann`, of 3 February 2024: no
hours and a deduction of 200. -/
def overdrawnStore : Store :=
  { exampleStore with
    workLogs :=
      exampleStore.workLogs ++
        [{ employeeId := some 1, date := some 1706918400000, hours_payrate1 := Field.val 0,
           hours_payrate2 := Field.val 0, deduction := Field.val 200 }] }

/-! ## Auxiliary lemmas -/

theorem roundDouble_zero : roundDouble 0 = JsNum.fin 0 := by
  simp [roundDouble]

theorem JsNum.zero_add_zero : (JsNum.fin 0).add (JsNum.fin 0) = JsNum.fin 0 := by
  simp [JsNum.add, roundDouble_zero]

theorem JsNum.zero_sub_zero : (JsNum.fin 0).sub (JsNum.fin 0) = JsNum.fin 0 := by
  simp [JsNum.sub, roundDouble_zero]

theorem JsNum.zero_mul_finite (a : JsNum) (h : a.isFinite = true) :
    (JsNum.fin 0).mul a = JsNum.fin 0 := by
  cases a <;> simp_all [JsNum.isFinite, JsNum.mul, roundDouble_zero]

theorem JsNum.nan_add (a : JsNum) : JsNum.nan.add a = JsNum.nan := by
  cases a <;> rfl

theorem JsNum.add_nan (a : JsNum) : a.add JsNum.nan = JsNum.nan := by
  cases a <;> rfl

theorem JsNum.nan_sub (a : JsNum) : JsNum.nan.sub a = JsNum.nan := by
  cases a <;> rfl

theorem JsNum.sub_nan (a : JsNum) : a.sub JsNum.nan = JsNum.nan := by
  cases a <;> rfl

theorem JsNum.nan_mul (a : JsNum) : JsNum.nan.mul a = JsNum.nan := by
  cases a <;> rfl

theorem JsNum.isNaN_iff (a : JsNum) : a.isNaN = true ↔ a = JsNum.nan := by
  cases a <;> simp [JsNum.isNaN]

theorem JsNum.foldl_add_nan (xs : List JsNum) : xs.foldl JsNum.add JsNum.nan = JsNum.nan := by
  induction xs with
  | nil => rfl
  | cons x xs ih => simpa [List.foldl, JsNum.nan_add] using ih

theorem JsNum.foldl_add_of_mem_nan (xs : List JsNum) (a : JsNum) (h : JsNum.nan ∈ xs) :
    xs.foldl JsNum.add a = JsNum.nan := by
  induction xs generalizing a with
  | nil => simp at h
  | cons x xs ih =>
    rcases List.mem_cons.mp h with h1 | h1
    · subst h1
      simp [List.foldl, JsNum.add_nan, JsNum.foldl_add_nan]
    · simpa [List.foldl] using ih (a.add x) h1

theorem jsSum_of_mem_nan (xs : List JsNum) (h : JsNum.nan ∈ xs) : jsSum xs = JsNum.nan :=
  JsNum.foldl_add_of_mem_nan xs _ h

theorem jsSum_of_missing (logs : List WorkLog) (f : WorkLog → Field)
    (h : ∃ log ∈ logs, f log = Field.undefined) :
    jsSum (logs.map (fun log => (f log).toNumber)) = JsNum.nan := by
  obtain ⟨log, hmem, hlog⟩ := h
  apply jsSum_of_mem_nan
  exact List.mem_map.mpr ⟨log, hmem, by simp [hlog, Field.toNumber]⟩

/-- The `forEach` accumulation of the three handlers, component by component. -/
theorem forEach_sums (logs : List WorkLog) (a b c : JsNum) :
    logs.foldl
      (fun (acc : JsNum × JsNum × JsNum) log =>
        (acc.1.add log.hours_payrate1.toNumber,
         acc.2.1.add log.hours_payrate2.toNumber,
         acc.2.2.add log.deduction.toNumber))
      (a, b, c) =
    ((logs.map (fun log => log.hours_payrate1.toNumber)).foldl JsNum.add a,
     (logs.map (fun log => log.hours_payrate2.toNumber)).foldl JsNum.add b,
     (logs.map (fun log => log.deduction.toNumber)).foldl JsNum.add c) := by
  induction logs generalizing a b c with
  | nil => rfl
  | cons l ls ih => simp only [List.foldl_cons, List.map_cons, ih]

theorem unpaidFloor_eq (employee : Employee) :
    employee.last_payroll_date.getD floorDate = unpaidFloor employee := by
  unfold unpaidFloor floorDate
  cases employee.last_payroll_date <;> rfl

theorem find_id (employees : List Employee) (oid : ObjectId) (employee : Employee)
    (h : employees.find? (fun e => decide (e._id = oid)) = some employee) :
    employee._id = oid := by
  have := List.find?_some h
  simpa using this

/-- The unpaid-window query of the preview and disburse handlers, once the
request id casts. -/
theorem find_unpaid (host : Host) (db : Store) (id : String) (oid : ObjectId) (bound : Date)
    (hcast : host.castObjectId id = some oid) :
    WorkLog.find host db (IdValue.str id) ⟨some (some bound), none, none⟩ =
      some (db.workLogs.filter (inUnpaidWindow oid bound)) := by
  simp only [WorkLog.find, IdValue.cast, hcast, castOperator, Option.some.injEq]
  apply List.filter_congr
  intro log _
  unfold inUnpaidWindow dateMatches
  cases log.date <;> simp

/-- The month-window query of the report handler with valid dates. -/
theorem find_month (host : Host) (db : Store) (oid : ObjectId) (startDate endDate : Date) :
    WorkLog.find host db (IdValue.oid oid) ⟨none, some (some startDate), some (some endDate)⟩ =
      some (db.workLogs.filter (inMonthWindow oid startDate endDate)) := by
  simp only [WorkLog.find, IdValue.cast, castOperator, Option.some.injEq]
  apply List.filter_congr
  intro log _
  unfold inMonthWindow dateMatches
  cases log.date <;> simp

/-- The month-window query with an Invalid Date throws. -/
theorem find_month_invalid (host : Host) (db : Store) (oid : ObjectId) (startDate endDate : JsDate)
    (h : startDate = none ∨ endDate = none) :
    WorkLog.find host db (IdValue.oid oid) ⟨none, some startDate, some endDate⟩ = none := by
  rcases h with h | h
  · subst h
    simp [WorkLog.find, IdValue.cast, castOperator]
  · subst h
    cases startDate <;> simp [WorkLog.find, IdValue.cast, castOperator]

theorem previewPay_of_cast_failed (host : Host) (db : Store) (id : String) (now : Date)
    (hcast : host.castObjectId id = none) :
    previewPay host db id now = (db, Response.error 500 "Server error") := by
  simp [previewPay, Employee.findById, hcast]

theorem previewPay_of_absent (host : Host) (db : Store) (id : String) (now : Date)
    (oid : ObjectId) (hcast : host.castObjectId id = some oid)
    (habsent : db.employees.find? (fun e => decide (e._id = oid)) = none) :
    previewPay host db id now = (db, Response.error 404 "Employee not found") := by
  simp [previewPay, Employee.findById, hcast, habsent]

/-- The preview handler on an employee that exists, with its sums named. -/
theorem previewPay_of_found (host : Host) (db : Store) (id : String) (now : Date)
    (oid : ObjectId) (employee : Employee) (hcast : host.castObjectId id = some oid)
    (hfound : db.employees.find? (fun e => decide (e._id = oid)) = some employee) :
    previewPay host db id now =
      (db, Response.ok (previewOf employee (unpaidLogs db employee) now)) := by
  have hid := find_id db.employees oid employee hfound
  simp only [previewPay, Employee.findById, hcast, hfound, unpaidFloor_eq,
    find_unpaid host db id oid _ hcast, forEach_sums, previewOf, unpaidLogs, hid, jsTotalHours,
    jsTotalPay, jsNetPay, jsHours1, jsHours2, jsDeductions, jsSum]

theorem disbursePay_of_cast_failed (host : Host) (db : Store) (id : String)
    (payNow saveNow : Date) (hcast : host.castObjectId id = none) :
    disbursePay host db id payNow saveNow = (db, Response.error 500 "Server error") := by
  simp [disbursePay, Employee.findById, hcast]

theorem disbursePay_of_absent (host : Host) (db : Store) (id : String) (payNow saveNow : Date)
    (oid : ObjectId) (hcast : host.castObjectId id = some oid)
    (habsent : db.employees.find? (fun e => decide (e._id = oid)) = none) :
    disbursePay host db id payNow saveNow = (db, Response.error 404 "Employee not found") := by
  simp [disbursePay, Employee.findById, hcast, habsent]

/-- The disburse handler on an employee that exists: it is aborted when one
of the totals is `NaN`, and otherwise inserts the Payroll document and stamps
the employee. -/
theorem disbursePay_of_found (host : Host) (db : Store) (id : String) (payNow saveNow : Date)
    (oid : ObjectId) (employee : Employee) (hcast : host.castObjectId id = some oid)
    (hfound : db.employees.find? (fun e => decide (e._id = oid)) = some employee) :
    disbursePay host db id payNow saveNow =
      if hasNaNTotal employee (unpaidLogs db employee) = true then
        (db, Response.error 500 "Server error")
      else
        ({ employees := setLastPayrollDate employee._id saveNow db.employees
           workLogs := db.workLogs
           payrolls := db.payrolls ++ [payrollOf employee (unpaidLogs db employee) payNow] },
         Response.ok (payrollOf employee (unpaidLogs db employee) payNow)) := by
  have hid := find_id db.employees oid employee hfound
  simp only [disbursePay, Employee.findById, hcast, hfound, unpaidFloor_eq,
    find_unpaid host db id oid _ hcast, forEach_sums, Payroll.save]
  by_cases hnan : hasNaNTotal employee (unpaidLogs db employee) = true
  · have hnan2 := hnan
    simp only [hasNaNTotal, unpaidLogs, hid, jsTotalHours, jsTotalPay, jsNetPay, jsHours1,
      jsHours2, jsDeductions, jsSum] at hnan2
    rw [if_pos hnan, if_pos hnan2]
  · have hnan2 := hnan
    simp only [hasNaNTotal, unpaidLogs, hid, jsTotalHours, jsTotalPay, jsNetPay, jsHours1,
      jsHours2, jsDeductions, jsSum] at hnan2
    rw [if_neg hnan, if_neg hnan2]
    simp only [Employee.save, payrollOf, unpaidLogs, hid, jsTotalHours, jsTotalPay, jsNetPay,
      jsHours1, jsHours2, jsDeductions, jsSum]

/-- A loop that appends one row per employee and adds its `netPay` to the
running total, from any state. -/
theorem foldlM_rows (f : Employee → ReportRow) (employees : List Employee) (total : JsNum)
    (rows : List ReportRow) :
    employees.foldlM
      (fun (state : JsNum × List ReportRow) emp =>
        some (state.1.add (f emp).netPay, state.2 ++ [f emp]))
      (total, rows) =
    some (((employees.map f).map (fun row => row.netPay)).foldl JsNum.add total,
      rows ++ employees.map f) := by
  induction employees generalizing total rows with
  | nil => simp
  | cons emp emps ih =>
    simp only [List.foldlM_cons, Option.bind_eq_bind, Option.some_bind, ih, List.map_cons,
      List.foldl_cons, List.append_assoc, List.singleton_append]

/-- The report loop over a valid window: the rows in employee order and the
JavaScript sum of their `netPay`. -/
theorem reportLoop_valid (host : Host) (db : Store) (finalMonth finalYear : Int)
    (startDate endDate : Date) (employees : List Employee) :
    reportLoop host db finalMonth finalYear (some startDate) (some endDate) employees =
      some (jsSum ((employees.map (reportRow db finalMonth finalYear startDate endDate)).map
          (fun row => row.netPay)),
        employees.map (reportRow db finalMonth finalYear startDate endDate)) := by
  unfold reportLoop
  have hstep :
      (fun (state : JsNum × List ReportRow) (emp : Employee) =>
        match WorkLog.find host db (IdValue.oid emp._id)
            ⟨none, some (some startDate), some (some endDate)⟩ with
        | none => none
        | some logs =>
          let sums := logs.foldl
            (fun (acc : JsNum × JsNum × JsNum) log =>
              (acc.1.add log.hours_payrate1.toNumber,
               acc.2.1.add log.hours_payrate2.toNumber,
               acc.2.2.add log.deduction.toNumber))
            (JsNum.fin 0, JsNum.fin 0, JsNum.fin 0)
          let totalHours1 := sums.1
          let totalHours2 := sums.2.1
          let totalDeductions := sums.2.2
          let totalPay :=
            (totalHours1.mul emp.pay_rate1.toNumber).add (totalHours2.mul emp.pay_rate2.toNumber)
          let netPay := totalPay.sub totalDeductions
          some (state.1.add netPay,
            state.2 ++
              [{ employeeId := emp._id
                 name := emp.name
                 role := emp.role
                 month := finalMonth
                 year := finalYear
                 totalHours := totalHours1.add totalHours2
                 totalPay := totalPay
                 totalDeductions := totalDeductions
                 netPay := netPay }])) =
      (fun (state : JsNum × List ReportRow) (emp : Employee) =>
        some (state.1.add (reportRow db finalMonth finalYear startDate endDate emp).netPay,
          state.2 ++ [reportRow db finalMonth finalYear startDate endDate emp])) := by
    funext state emp
    simp only [find_month, forEach_sums, reportRow, monthLogs, jsTotalHours, jsTotalPay,
      jsNetPay, jsHours1, jsHours2, jsDeductions, jsSum]
  rw [hstep, foldlM_rows]
  simp [jsSum]

/-- With an Invalid Date in the window the first iteration of the report loop
throws; without employees there is no iteration. -/
theorem reportLoop_invalid (host : Host) (db : Store) (finalMonth finalYear : Int)
    (startDate endDate : JsDate) (employees : List Employee)
    (h : startDate = none ∨ endDate = none) :
    reportLoop host db finalMonth finalYear startDate endDate employees =
      if employees = [] then some (JsNum.fin 0, []) else none := by
  cases employees with
  | nil => simp [reportLoop]
  | cons emp emps =>
    simp [reportLoop, List.foldlM_cons, find_month_invalid host db emp._id startDate endDate h]

/-- The report handler in terms of the employees it selects and its loop. -/
theorem monthlyReport_eq (host : Host) (db : Store) (query : ReportQuery) :
    monthlyReport host db query =
      match selectedEmployees host db query.employeeId with
      | none => (db, Response.error 500 "Server error")
      | some employees =>
        match reportLoop host db (orFallback query.month (host.getMonth + 1))
            (orFallback query.year host.getFullYear) (monthWindow host query).1
            (monthWindow host query).2 employees with
        | none => (db, Response.error 500 "Server error")
        | some out => (db, Response.ok { results := out.2, totalExpense := out.1 }) := by
  unfold monthlyReport
  simp only [monthWindow]
  cases hq : query.employeeId with
  | none => simp [selectedEmployees, Employee.find]
  | some employeeId =>
    by_cases hspecific : employeeId ≠ "" ∧ employeeId ≠ "all"
    · have hnot : ¬(employeeId = "" ∨ employeeId = "all") := by
        rintro (h | h)
        · exact hspecific.1 h
        · exact hspecific.2 h
      simp only [selectedEmployees, if_pos hspecific, if_neg hnot, Employee.findById]
      cases hcast : host.castObjectId employeeId with
      | none => simp
      | some oid =>
        cases hfound : db.employees.find? (fun e => decide (e._id = oid)) with
        | none => simp [hfound, reportLoop]
        | some oneEmp => simp [hfound]
    · have hor : employeeId = "" ∨ employeeId = "all" := by
        by_contra hcon
        exact hspecific ⟨fun h => hcon (Or.inl h), fun h => hcon (Or.inr h)⟩
      simp only [selectedEmployees, if_neg hspecific, if_pos hor, Employee.find]

theorem monthlyReport_of_cast_failed (host : Host) (db : Store) (query : ReportQuery)
    (h : selectedEmployees host db query.employeeId = none) :
    monthlyReport host db query = (db, Response.error 500 "Server error") := by
  rw [monthlyReport_eq, h]

/-- The report handler over a valid window: one row per selected employee, and
the running total of their `netPay`. -/
theorem monthlyReport_of_valid (host : Host) (db : Store) (query : ReportQuery)
    (employees : List Employee) (startDate endDate : Date)
    (hsel : selectedEmployees host db query.employeeId = some employees)
    (hwin : monthWindow host query = (some startDate, some endDate)) :
    monthlyReport host db query =
      (db, Response.ok
        { results :=
            employees.map (reportRow db (orFallback query.month (host.getMonth + 1))
              (orFallback query.year host.getFullYear) startDate endDate)
          totalExpense :=
            jsSum ((employees.map (reportRow db (orFallback query.month (host.getMonth + 1))
              (orFallback query.year host.getFullYear) startDate endDate)).map
              (fun row => row.netPay)) }) := by
  rw [monthlyReport_eq, hsel, hwin]
  simp only [reportLoop_valid]

/-- The report handler over a window with an Invalid Date: an empty report
when no employee is selected, and 500 otherwise. -/
theorem monthlyReport_of_invalid (host : Host) (db : Store) (query : ReportQuery)
    (employees : List Employee)
    (hsel : selectedEmployees host db query.employeeId = some employees)
    (hwin : (monthWindow host query).1 = none ∨ (monthWindow host query).2 = none) :
    monthlyReport host db query =
      if employees = [] then (db, Response.ok { results := [], totalExpense := JsNum.fin 0 })
      else (db, Response.error 500 "Server error") := by
  rw [monthlyReport_eq, hsel]
  simp only [reportLoop_invalid host db _ _ _ _ employees hwin]
  by_cases hnil : employees = [] <;> simp [hnil]

theorem find_eq_none_iff (employees : List Employee) (oid : ObjectId) :
    employees.find? (fun e => decide (e._id = oid)) = none ↔ ∀ e ∈ employees, e._id ≠ oid := by
  simp [List.find?_eq_none]

/-- The stored document that the lookup returns is the first with that `_id`,
and `setLastPayrollDate` rewrites that document only. -/
theorem setLastPayrollDate_split (id : ObjectId) (value : Date) (employees : List Employee)
    (employee : Employee) (h : employees.find? (fun e => decide (e._id = id)) = some employee) :
    ∃ pre post, employees = pre ++ employee :: post ∧ (∀ e ∈ pre, e._id ≠ id) ∧
      employee._id = id ∧
      setLastPayrollDate id value employees =
        pre ++ { employee with last_payroll_date := some value } :: post := by
  induction employees with
  | nil => simp at h
  | cons e es ih =>
    by_cases he : e._id = id
    · have : e = employee := by simpa [List.find?, he] using h
      subst this
      exact ⟨[], es, rfl, by simp, he, by simp [setLastPayrollDate, he]⟩
    · have h1 : es.find? (fun e => decide (e._id = id)) = some employee := by
        simpa [List.find?, he] using h
      obtain ⟨pre, post, hsplit, hpre, hid, hset⟩ := ih h1
      refine ⟨e :: pre, post, by simp [hsplit], ?_, hid, ?_⟩
      · intro x hx
        rcases List.mem_cons.mp hx with hx | hx
        · subst hx; exact he
        · exact hpre x hx
      · simp [setLastPayrollDate, he, hset]

theorem find_setLastPayrollDate (id : ObjectId) (value : Date) (employees : List Employee)
    (employee : Employee) (h : employees.find? (fun e => decide (e._id = id)) = some employee) :
    (setLastPayrollDate id value employees).find? (fun e => decide (e._id = id)) =
      some { employee with last_payroll_date := some value } := by
  induction employees with
  | nil => simp at h
  | cons e es ih =>
    by_cases he : e._id = id
    · have : e = employee := by simpa [List.find?, he] using h
      subst this
      simp [setLastPayrollDate, he, List.find?]
    · have h1 : es.find? (fun e => decide (e._id = id)) = some employee := by
        simpa [List.find?, he] using h
      simp [setLastPayrollDate, he, List.find?, ih h1]

/-- What a successful disbursement tells: the id casts, the employee exists,
no total is `NaN`, and the handler took its success branch. -/
theorem disbursePay_ok (host : Host) (db : Store) (id : String) (payNow saveNow : Date)
    (payroll : Payroll) (hok : (disbursePay host db id payNow saveNow).2 = Response.ok payroll) :
    ∃ oid employee, host.castObjectId id = some oid ∧
      db.employees.find? (fun e => decide (e._id = oid)) = some employee ∧
      hasNaNTotal employee (unpaidLogs db employee) = false ∧
      payroll = payrollOf employee (unpaidLogs db employee) payNow ∧
      (disbursePay host db id payNow saveNow).1 =
        { employees := setLastPayrollDate employee._id saveNow db.employees
          workLogs := db.workLogs
          payrolls := db.payrolls ++ [payroll] } := by
  cases hcast : host.castObjectId id with
  | none =>
    rw [disbursePay_of_cast_failed host db id payNow saveNow hcast] at hok
    simp at hok
  | some oid =>
    cases hfound : db.employees.find? (fun e => decide (e._id = oid)) with
    | none =>
      rw [disbursePay_of_absent host db id payNow saveNow oid hcast hfound] at hok
      simp at hok
    | some employee =>
      rw [disbursePay_of_found host db id payNow saveNow oid employee hcast hfound] at hok ⊢
      by_cases hnan : hasNaNTotal employee (unpaidLogs db employee) = true
      · rw [if_pos hnan] at hok
        simp at hok
      · rw [if_neg hnan] at hok ⊢
        have hpay : payrollOf employee (unpaidLogs db employee) payNow = payroll := by
          simpa using hok
        refine ⟨oid, employee, rfl, hfound, by simpa using hnan, hpay.symm, ?_⟩
        rw [hpay]

theorem pow2_eq_zpow (k : ℤ) : pow2 k = (2 : ℚ) ^ k := by
  unfold pow2
  split
  · next h =>
    obtain ⟨n, rfl⟩ := Int.eq_ofNat_of_zero_le h
    simp
  · next h =>
    have hk : 0 ≤ -k := by omega
    obtain ⟨n, hn⟩ := Int.eq_ofNat_of_zero_le hk
    have : k = -(n : ℤ) := by omega
    subst this
    simp

theorem pow2_pos (k : ℤ) : 0 < pow2 k := by
  rw [pow2_eq_zpow]; positivity

theorem log2Loop_eq (fuel n count : Nat) (h : n ≤ fuel) :
    log2Loop fuel n count = count + Nat.log2 n := by
  induction fuel generalizing n count with
  | zero =>
    have : n = 0 := by omega
    subst this
    simp [log2Loop, Nat.log2]
  | succ f ih =>
    unfold log2Loop
    by_cases h2 : 2 ≤ n
    · rw [if_pos h2, ih (n / 2) (count + 1) (by omega)]
      conv_rhs => rw [Nat.log2]
      simp [h2]; omega
    · rw [if_neg h2]
      conv_rhs => rw [Nat.log2]
      simp [h2]

theorem natLog2_eq (n : Nat) : natLog2 n = Nat.log2 n := by
  simp [natLog2, log2Loop_eq n n 0 (le_refl n)]

theorem pow2_add (a b : ℤ) : pow2 (a + b) = pow2 a * pow2 b := by
  simp only [pow2_eq_zpow]
  exact zpow_add₀ (by norm_num) a b

theorem pow2_le_pow2 (a b : ℤ) (h : a ≤ b) : pow2 a ≤ pow2 b := by
  simp only [pow2_eq_zpow]
  exact zpow_le_zpow_right₀ (by norm_num) h

/-- A positive rational exceeds `2 ^ (floorLog2 a - 1)`. -/
theorem pow2_floorLog2_lt (a : ℚ) (ha : 0 < a) : pow2 (floorLog2 a - 1) < a := by
  have hnum : 0 < a.num := Rat.num_pos.mpr ha
  have hp : (a.num.natAbs : ℤ) = a.num := Int.natAbs_of_nonneg hnum.le
  have hp0 : a.num.natAbs ≠ 0 := by
    intro h
    rw [h] at hp
    omega
  have hd0 : a.den ≠ 0 := a.den_nz
  have h1 : 2 ^ Nat.log2 a.num.natAbs ≤ a.num.natAbs := Nat.log2_self_le hp0
  have h2 : a.den < 2 ^ (Nat.log2 a.den + 1) := Nat.lt_log2_self
  have hk : pow2 ((Nat.log2 a.num.natAbs : ℤ) - (Nat.log2 a.den : ℤ) - 1) < a := by
    rw [pow2_eq_zpow]
    have hnumq : (a.num.natAbs : ℚ) = (a.num : ℚ) := by
      rw [Nat.cast_natAbs, abs_of_pos hnum]
    have ha' : (a.num.natAbs : ℚ) / (a.den : ℚ) = a := by
      rw [hnumq]
      exact Rat.num_div_den a
    have e1 : ((2 : ℚ) ^ ((Nat.log2 a.num.natAbs : ℤ) - (Nat.log2 a.den : ℤ) - 1)) =
        (2 : ℚ) ^ (Nat.log2 a.num.natAbs) / (2 : ℚ) ^ (Nat.log2 a.den + 1) := by
      rw [show ((Nat.log2 a.num.natAbs : ℤ) - (Nat.log2 a.den : ℤ) - 1) =
        (Nat.log2 a.num.natAbs : ℤ) - ((Nat.log2 a.den + 1 : ℕ) : ℤ) by push_cast; ring]
      rw [zpow_sub₀ (by norm_num), zpow_natCast, zpow_natCast]
    rw [e1]
    have hq1 : ((2 : ℚ) ^ Nat.log2 a.num.natAbs) ≤ (a.num.natAbs : ℚ) := by exact_mod_cast h1
    have hq2 : (a.den : ℚ) < (2 : ℚ) ^ (Nat.log2 a.den + 1) := by exact_mod_cast h2
    have hdpos : (0 : ℚ) < a.den := by exact_mod_cast Nat.pos_of_ne_zero hd0
    have hppos : (0 : ℚ) < a.num.natAbs := by exact_mod_cast Nat.pos_of_ne_zero hp0
    calc (2 : ℚ) ^ Nat.log2 a.num.natAbs / (2 : ℚ) ^ (Nat.log2 a.den + 1)
        ≤ (a.num.natAbs : ℚ) / (2 : ℚ) ^ (Nat.log2 a.den + 1) := by
          apply div_le_div_of_nonneg_right hq1
          positivity
      _ < (a.num.natAbs : ℚ) / (a.den : ℚ) := by
          apply div_lt_div_of_pos_left hppos hdpos hq2
      _ = a := ha'
  unfold floorLog2
  simp only [natLog2_eq]
  split
  · exact hk
  · refine lt_of_le_of_lt (pow2_le_pow2 _ _ (by omega)) hk

theorem roundHalfEven_pos (x : ℚ) (hx : 1 / 2 < x) : 1 ≤ roundHalfEven x := by
  unfold roundHalfEven
  have hfloor : 0 ≤ x.floor := by
    rw [Rat.le_floor]
    have : (0 : ℚ) ≤ x := by linarith
    exact_mod_cast this
  by_cases hf : x.floor.toNat = 0
  · have hf0 : x.floor = 0 := by omega
    simp only [hf, Nat.cast_zero, sub_zero]
    rw [if_neg (by linarith), if_pos hx]
  · have : 1 ≤ x.floor.toNat := Nat.one_le_iff_ne_zero.mpr hf
    simp only
    split
    · exact this
    · split
      · omega
      · split <;> omega

theorem onGrid_sub (x y : ℚ) (hx : onGrid x) (hy : onGrid y) : onGrid (x - y) := by
  obtain ⟨n, rfl⟩ := hx
  obtain ⟨m, rfl⟩ := hy
  exact ⟨n - m, by push_cast; ring⟩

/-- The spacing used by `roundDouble` is an integer multiple of `2 ^ -1074`. -/
theorem quantum_onGrid (e : ℤ) (he : -1022 ≤ e) : ∃ m : ℕ, pow2 (e - 52) = (m : ℚ) * pow2 (-1074) := by
  have h0 : 0 ≤ e + 1022 := by omega
  refine ⟨2 ^ (e + 1022).toNat, ?_⟩
  have hsplit : e - 52 = (e + 1022) + (-1074) := by ring
  rw [hsplit, pow2_add]
  congr 1
  unfold pow2
  rw [if_pos h0]

theorem roundDouble_onGrid (q : ℚ) : (roundDouble q).onGrid := by
  unfold roundDouble
  split
  · exact ⟨0, by simp⟩
  · simp only
    split
    · split <;> exact trivial
    · obtain ⟨m, hm⟩ := quantum_onGrid (max (floorLog2 |q|) (-1022)) (le_max_right _ _)
      show onGrid _
      split
      · exact ⟨(roundHalfEven (|q| / pow2 (max (floorLog2 |q|) (-1022) - 52)) : ℤ) * m, by
          rw [hm]; push_cast; ring⟩
      · exact ⟨-((roundHalfEven (|q| / pow2 (max (floorLog2 |q|) (-1022) - 52)) : ℤ) * m), by
          rw [hm]; push_cast; ring⟩

/-- A negative multiple of `2 ^ -1074` rounds to a negative number: a
difference of binary64 values never rounds to zero. -/
theorem roundDouble_neg (q : ℚ) (hgrid : onGrid q) (hneg : q < 0) :
    (roundDouble q).lt (JsNum.fin 0) = true := by
  have hq0 : q ≠ 0 := ne_of_lt hneg
  have hnotpos : ¬ 0 < q := not_lt.mpr hneg.le
  have ha : 0 < |q| := abs_pos.mpr hq0
  have hquant : 0 < pow2 (max (floorLog2 |q|) (-1022) - 52) := pow2_pos _
  have hhalf : 1 / 2 < |q| / pow2 (max (floorLog2 |q|) (-1022) - 52) := by
    rw [lt_div_iff₀ hquant]
    by_cases he : -1022 ≤ floorLog2 |q|
    · rw [max_eq_left he]
      have h1 := pow2_floorLog2_lt |q| ha
      have h2 : pow2 (floorLog2 |q| - 52) ≤ pow2 (floorLog2 |q| - 1) :=
        pow2_le_pow2 _ _ (by omega)
      have h3 : 0 < pow2 (floorLog2 |q| - 52) := pow2_pos _
      linarith
    · rw [max_eq_right (by omega)]
      obtain ⟨n, hn⟩ := hgrid
      have hp : 0 < pow2 (-1074) := pow2_pos _
      have hn0 : n ≠ 0 := by
        rintro rfl
        simp at hn
        exact hq0 hn
      have habs : |q| = (|n| : ℤ) * pow2 (-1074) := by
        rw [hn, abs_mul, abs_of_pos hp, Int.cast_abs]
      have hone : (1 : ℚ) ≤ ((|n| : ℤ) : ℚ) := by
        have : (1 : ℤ) ≤ |n| := Int.one_le_abs hn0
        exact_mod_cast this
      rw [habs, show (-1022 : ℤ) - 52 = -1074 by norm_num]
      nlinarith
  have hn := roundHalfEven_pos _ hhalf
  have hr : 0 < (roundHalfEven (|q| / pow2 (max (floorLog2 |q|) (-1022) - 52)) : ℚ) *
      pow2 (max (floorLog2 |q|) (-1022) - 52) := by
    apply mul_pos _ hquant
    exact_mod_cast hn
  unfold roundDouble
  rw [if_neg hq0]
  simp only [if_neg hnotpos]
  split
  · rfl
  · simp only [JsNum.lt, decide_eq_true_eq]
    linarith

theorem JsNum.add_onGrid (a b : JsNum) : (a.add b).onGrid := by
  cases a <;> cases b <;> first | exact roundDouble_onGrid _ | exact trivial

theorem JsNum.foldl_add_onGrid (xs : List JsNum) (a : JsNum) (ha : a.onGrid) :
    (xs.foldl JsNum.add a).onGrid := by
  induction xs generalizing a with
  | nil => exact ha
  | cons x xs ih => exact ih (a.add x) (JsNum.add_onGrid a x)

theorem jsSum_onGrid (xs : List JsNum) : (jsSum xs).onGrid :=
  JsNum.foldl_add_onGrid xs _ ⟨0, by simp⟩

/-- Subtraction of numbers on the grid: when `a < b`, `a - b` is negative. -/
theorem JsNum.sub_neg_of_lt (a b : JsNum) (ha : a.onGrid) (hb : b.onGrid)
    (h : a.lt b = true) : (a.sub b).lt (JsNum.fin 0) = true := by
  cases a with
  | fin x =>
    cases b with
    | fin y =>
      have hxy : x < y := by simpa [JsNum.lt] using h
      exact roundDouble_neg (x - y) (onGrid_sub x y ha hb) (by linarith)
    | posInf => rfl
    | negInf => simp [JsNum.lt] at h
    | nan => simp [JsNum.lt] at h
  | posInf => cases b <;> simp [JsNum.lt] at h
  | negInf =>
    cases b with
    | fin y => rfl
    | posInf => rfl
    | negInf => simp [JsNum.lt] at h
    | nan => simp [JsNum.lt] at h
  | nan => cases b <;> simp [JsNum.lt] at h

/-- The lookup by request string, unfolded. -/
theorem findById_some (host : Host) (db : Store) (id : String) (employee : Employee)
    (h : Employee.findById host db id = some (some employee)) :
    ∃ oid, host.castObjectId id = some oid ∧
      db.employees.find? (fun e => decide (e._id = oid)) = some employee := by
  unfold Employee.findById at h
  cases hcast : host.castObjectId id with
  | none => simp [hcast] at h
  | some oid =>
    simp only [hcast, Option.some.injEq] at h
    exact ⟨oid, rfl, h⟩

/-- The totals over logs with a missing field: a missing hours field makes the
hours, the gross pay and the net pay `NaN`; a missing deduction makes the
deductions and the net pay `NaN`. -/
theorem nan_totals_of_missing (employee : Employee) (logs : List WorkLog) :
    ((∃ log ∈ logs, log.hours_payrate1 = Field.undefined ∨
        log.hours_payrate2 = Field.undefined) →
      jsTotalHours logs = JsNum.nan ∧ jsTotalPay employee logs = JsNum.nan ∧
        jsNetPay employee logs = JsNum.nan) ∧
    ((∃ log ∈ logs, log.deduction = Field.undefined) →
      jsDeductions logs = JsNum.nan ∧ jsNetPay employee logs = JsNum.nan) := by
  constructor
  · rintro ⟨log, hmem, h1 | h2⟩
    · have hnan : jsHours1 logs = JsNum.nan :=
        jsSum_of_missing logs (fun log => log.hours_payrate1) ⟨log, hmem, h1⟩
      simp [jsTotalHours, jsNetPay, jsTotalPay, hnan, JsNum.nan_add, JsNum.nan_mul,
        JsNum.nan_sub]
    · have hnan : jsHours2 logs = JsNum.nan :=
        jsSum_of_missing logs (fun log => log.hours_payrate2) ⟨log, hmem, h2⟩
      simp [jsTotalHours, jsNetPay, jsTotalPay, hnan, JsNum.add_nan, JsNum.nan_mul,
        JsNum.nan_sub]
  · rintro ⟨log, hmem, h⟩
    have hnan : jsDeductions logs = JsNum.nan :=
      jsSum_of_missing logs (fun log => log.deduction) ⟨log, hmem, h⟩
    simp [jsNetPay, hnan, JsNum.sub_nan]

/-! ## The claims -/

/-! ### C1: the payroll formulas -/

/-- C1: over the selected logs L of an employee, the preview response and every
row of a monthly report carry
totalHours = sum of hours_payrate1 + sum of hours_payrate2,
totalPay = (sum of hours_payrate1) * pay_rate1 + (sum of hours_payrate2) * pay_rate2,
deductions = sum of deduction and netPay = totalPay - deductions, in JavaScript
arithmetic; netPay is not clamped: it is negative whenever deductions exceed
totalPay; and with numeric (finite) pay rates all four are 0 when L is empty. -/
theorem totals_formulas (host : Host) (db : Store) :
    (∀ (id : String) (now : Date) (employee : Employee),
      Employee.findById host db id = some (some employee) →
      (previewPay host db id now).2 = Response.ok
        { totalHours :=
            (jsHours1 (unpaidLogs db employee)).add (jsHours2 (unpaidLogs db employee))
          totalPay :=
            ((jsHours1 (unpaidLogs db employee)).mul employee.pay_rate1.toNumber).add
              ((jsHours2 (unpaidLogs db employee)).mul employee.pay_rate2.toNumber)
          deductions := jsDeductions (unpaidLogs db employee)
          netPay :=
            (((jsHours1 (unpaidLogs db employee)).mul employee.pay_rate1.toNumber).add
              ((jsHours2 (unpaidLogs db employee)).mul employee.pay_rate2.toNumber)).sub
              (jsDeductions (unpaidLogs db employee))
          lastPayDate := unpaidFloor employee
          previewDate := now }) ∧
    (∀ (query : ReportQuery) (employees : List Employee) (k : Nat) (emp : Employee)
        (startDate endDate : Date),
      selectedEmployees host db query.employeeId = some employees →
      employees[k]? = some emp →
      monthWindow host query = (some startDate, some endDate) →
      ∃ report row, (monthlyReport host db query).2 = Response.ok report ∧
        report.results[k]? = some row ∧ row.employeeId = emp._id ∧
        row.totalHours =
          (jsHours1 (monthLogs db startDate endDate emp)).add
            (jsHours2 (monthLogs db startDate endDate emp)) ∧
        row.totalPay =
          ((jsHours1 (monthLogs db startDate endDate emp)).mul emp.pay_rate1.toNumber).add
            ((jsHours2 (monthLogs db startDate endDate emp)).mul emp.pay_rate2.toNumber) ∧
        row.totalDeductions = jsDeductions (monthLogs db startDate endDate emp) ∧
        row.netPay =
          (((jsHours1 (monthLogs db startDate endDate emp)).mul emp.pay_rate1.toNumber).add
            ((jsHours2 (monthLogs db startDate endDate emp)).mul emp.pay_rate2.toNumber)).sub
            (jsDeductions (monthLogs db startDate endDate emp))) ∧
    (∀ (employee : Employee) (logs : List WorkLog),
      (((jsHours1 logs).mul employee.pay_rate1.toNumber).add
        ((jsHours2 logs).mul employee.pay_rate2.toNumber)).lt (jsDeductions logs) = true →
      ((((jsHours1 logs).mul employee.pay_rate1.toNumber).add
        ((jsHours2 logs).mul employee.pay_rate2.toNumber)).sub (jsDeductions logs)).lt
          (JsNum.fin 0) = true) ∧
    (∀ (employee : Employee),
      employee.pay_rate1.toNumber.isFinite = true →
      employee.pay_rate2.toNumber.isFinite = true →
      (jsHours1 []).add (jsHours2 []) = JsNum.fin 0 ∧
      ((jsHours1 []).mul employee.pay_rate1.toNumber).add
        ((jsHours2 []).mul employee.pay_rate2.toNumber) = JsNum.fin 0 ∧
      jsDeductions [] = JsNum.fin 0 ∧
      (((jsHours1 []).mul employee.pay_rate1.toNumber).add
        ((jsHours2 []).mul employee.pay_rate2.toNumber)).sub (jsDeductions []) = JsNum.fin 0) := by
  refine ⟨?_, ?_, ?_, ?_⟩
  · intro id now employee hfound
    obtain ⟨oid, hcast, hfind⟩ := findById_some host db id employee hfound
    rw [previewPay_of_found host db id now oid employee hcast hfind]
    rfl
  · intro query employees k emp startDate endDate hsel hk hwin
    rw [monthlyReport_of_valid host db query employees startDate endDate hsel hwin]
    refine ⟨_, reportRow db (orFallback query.month (host.getMonth + 1))
      (orFallback query.year host.getFullYear) startDate endDate emp, rfl, ?_, rfl, rfl, rfl,
      rfl, rfl⟩
    simp only [List.getElem?_map, hk, Option.map_some']
  · intro employee logs hlt
    exact JsNum.sub_neg_of_lt _ _ (JsNum.add_onGrid _ _) (jsSum_onGrid _) hlt
  · intro employee h1 h2
    simp [jsHours1, jsHours2, jsDeductions, jsSum, JsNum.zero_add_zero, JsNum.zero_sub_zero,
      JsNum.zero_mul_finite _ h1, JsNum.zero_mul_finite _ h2]

/-- Witness of C1: rates 10 and 15 with logs (5, 0, 2) and (0, 4, 0) give
totalHours 9, totalPay 110, deductions 2 and netPay 108, in the preview and in
the report row of February 2024; a further deduction of 200 gives the negative
netPay -92. -/
theorem totals_formulas_witness :
    (previewPay utcHost exampleStore annId 1793836800000).2 = Response.ok
      { totalHours := JsNum.fin 9
        totalPay := JsNum.fin 110
        deductions := JsNum.fin 2
        netPay := JsNum.fin 108
        lastPayDate := 1704067200000
        previewDate := 1793836800000 } ∧
    (∃ report row,
      (monthlyReport utcHost exampleStore februaryQuery).2 = Response.ok report ∧
      report.results[0]? = some row ∧ row.employeeId = 1 ∧
      row.totalHours = JsNum.fin 9 ∧ row.totalPay = JsNum.fin 110 ∧
      row.totalDeductions = JsNum.fin 2 ∧ row.netPay = JsNum.fin 108) ∧
    (previewPay utcHost overdrawnStore annId 1793836800000).2 = Response.ok
      { totalHours := JsNum.fin 9
        totalPay := JsNum.fin 110
        deductions := JsNum.fin 202
        netPay := JsNum.fin (-92)
        lastPayDate := 1704067200000
        previewDate := 1793836800000 } := by
  refine ⟨?_, ?_, ?_⟩
  · rw [(totals_formulas utcHost exampleStore).1 annId 1793836800000 ann (by decide!)]
    decide!
  · obtain ⟨report, row, h0, h1, h2, h3, h4, h5, h6⟩ :=
      (totals_formulas utcHost exampleStore).2.1 februaryQuery [ann] 0 ann 1706745600000
        1709251199999 (by decide!) (by decide!) (by decide!)
    refine ⟨report, row, h0, h1, h2, ?_, ?_, ?_, ?_⟩
    · rw [h3]; decide!
    · rw [h4]; decide!
    · rw [h5]; decide!
    · rw [h6]; decide!
  · rw [(totals_formulas utcHost overdrawnStore).1 annId 1793836800000 ann (by decide!)]
    decide!

/-! ### C2: disburse and preview agree -/

/-- C2: whenever disbursePay returns a Payroll record, previewPay on the same
store returns a result with the same totalHours, totalPay, deductions and
netPay; and disbursePay does return a record whenever previewPay returns a
result none of whose four totals is NaN. -/
theorem disburse_totals_eq_preview (host : Host) (db : Store) (id : String)
    (payNow saveNow now : Date) :
    (∀ payroll, (disbursePay host db id payNow saveNow).2 = Response.ok payroll →
      ∃ preview, (previewPay host db id now).2 = Response.ok preview ∧
        payroll.totalHours = preview.totalHours ∧ payroll.totalPay = preview.totalPay ∧
        payroll.deductions = preview.deductions ∧ payroll.netPay = preview.netPay) ∧
    (∀ preview, (previewPay host db id now).2 = Response.ok preview →
      preview.totalHours.isNaN = false → preview.totalPay.isNaN = false →
      preview.deductions.isNaN = false → preview.netPay.isNaN = false →
      ∃ payroll, (disbursePay host db id payNow saveNow).2 = Response.ok payroll ∧
        payroll.totalHours = preview.totalHours ∧ payroll.totalPay = preview.totalPay ∧
        payroll.deductions = preview.deductions ∧ payroll.netPay = preview.netPay) := by
  constructor
  · intro payroll hok
    obtain ⟨oid, employee, hcast, hfound, -, hpay, -⟩ :=
      disbursePay_ok host db id payNow saveNow payroll hok
    rw [previewPay_of_found host db id now oid employee hcast hfound, hpay]
    exact ⟨_, rfl, rfl, rfl, rfl, rfl⟩
  · intro preview hprev h1 h2 h3 h4
    cases hcast : host.castObjectId id with
    | none =>
      rw [previewPay_of_cast_failed host db id now hcast] at hprev
      simp at hprev
    | some oid =>
      cases hfound : db.employees.find? (fun e => decide (e._id = oid)) with
      | none =>
        rw [previewPay_of_absent host db id now oid hcast hfound] at hprev
        simp at hprev
      | some employee =>
        rw [previewPay_of_found host db id now oid employee hcast hfound] at hprev
        have hbody : previewOf employee (unpaidLogs db employee) now = preview := by
          simpa using hprev
        subst hbody
        have hnan : ¬ hasNaNTotal employee (unpaidLogs db employee) = true := by
          simp only [previewOf] at h1 h2 h3 h4
          simp [hasNaNTotal, h1, h2, h3, h4]
        rw [disbursePay_of_found host db id payNow saveNow oid employee hcast hfound,
          if_neg hnan]
        exact ⟨_, rfl, rfl, rfl, rfl, rfl⟩

/-- Witness of C2: on the example store, disbursing employee 1 returns the
record (9, 110, 2, 108), the totals of the preview. -/
theorem disburse_totals_eq_preview_witness :
    (disbursePay utcHost exampleStore annId 1793836800000 1793836800001).2 = Response.ok
      { employeeId := 1, totalHours := JsNum.fin 9, totalPay := JsNum.fin 110,
        deductions := JsNum.fin 2, netPay := JsNum.fin 108, payDate := 1793836800000 } ∧
    ∃ preview, (previewPay utcHost exampleStore annId 1793836800002).2 = Response.ok preview ∧
      preview.totalHours = JsNum.fin 9 ∧ preview.totalPay = JsNum.fin 110 ∧
      preview.deductions = JsNum.fin 2 ∧ preview.netPay = JsNum.fin 108 := by
  have hok : (disbursePay utcHost exampleStore annId 1793836800000 1793836800001).2 =
      Response.ok
        { employeeId := 1, totalHours := JsNum.fin 9, totalPay := JsNum.fin 110,
          deductions := JsNum.fin 2, netPay := JsNum.fin 108, payDate := 1793836800000 } := by
    decide!
  obtain ⟨preview, h0, h1, h2, h3, h4⟩ :=
    (disburse_totals_eq_preview utcHost exampleStore annId 1793836800000 1793836800001
      1793836800002).1 _ hok
  exact ⟨hok, preview, h0, h1.symm, h2.symm, h3.symm, h4.symm⟩

/-! ### C3: preview after disburse -/

/-- Counterexample to C3: a log dated after the disbursement is paid by it and
is still selected by the next preview, which reports 5 hours, 50 gross and 2
deducted instead of zeros; and with a pay rate of `1e999`, read as Infinity,
the disbursement succeeds and the next preview, over no logs, reports a
totalPay of NaN instead of 0. -/
theorem preview_after_disburse_counterexample :
    ((disbursePay utcHost futureLogStore annId 1793836800000 1793836800000).2 = Response.ok
        { employeeId := 1, totalHours := JsNum.fin 5, totalPay := JsNum.fin 50,
          deductions := JsNum.fin 2, netPay := JsNum.fin 48, payDate := 1793836800000 } ∧
      (previewPay utcHost
          (disbursePay utcHost futureLogStore annId 1793836800000 1793836800000).1 annId
          1793836800001).2 = Response.ok
        { totalHours := JsNum.fin 5, totalPay := JsNum.fin 50, deductions := JsNum.fin 2,
          netPay := JsNum.fin 48, lastPayDate := 1793836800000,
          previewDate := 1793836800001 }) ∧
    ((disbursePay utcHost infiniteRateStore annId 1793836800000 1793836800000).2 = Response.ok
        { employeeId := 1, totalHours := JsNum.fin 5, totalPay := JsNum.posInf,
          deductions := JsNum.fin 2, netPay := JsNum.posInf, payDate := 1793836800000 } ∧
      (previewPay utcHost
          (disbursePay utcHost infiniteRateStore annId 1793836800000 1793836800000).1 annId
          1793836800001).2 = Response.ok
        { totalHours := JsNum.fin 0, totalPay := JsNum.nan, deductions := JsNum.fin 0,
          netPay := JsNum.nan, lastPayDate := 1793836800000,
          previewDate := 1793836800001 }) := by
  refine ⟨⟨?_, ?_⟩, ⟨?_, ?_⟩⟩ <;> decide!

/-- C3, amended: after disbursePay succeeds, when no work log of the employee
is dated after the new last_payroll_date, the next previewPay over the same
logs reports totalHours 0 and deductions 0 with that date as lastPayDate, and
totalPay 0 and netPay 0 when both pay rates are finite. -/
theorem preview_after_disburse (host : Host) (db : Store) (id : String)
    (payNow saveNow now : Date) (employee : Employee) (payroll : Payroll)
    (hfound : Employee.findById host db id = some (some employee))
    (hok : (disbursePay host db id payNow saveNow).2 = Response.ok payroll)
    (hpast : ∀ log ∈ db.workLogs, log.employeeId = some employee._id →
      ∀ d, log.date = some d → d ≤ saveNow) :
    ∃ preview,
      (previewPay host (disbursePay host db id payNow saveNow).1 id now).2 =
        Response.ok preview ∧
      preview.totalHours = JsNum.fin 0 ∧ preview.deductions = JsNum.fin 0 ∧
      preview.lastPayDate = saveNow ∧
      (employee.pay_rate1.toNumber.isFinite = true →
        employee.pay_rate2.toNumber.isFinite = true →
        preview.totalPay = JsNum.fin 0 ∧ preview.netPay = JsNum.fin 0) := by
  obtain ⟨oid, hcast, hfind⟩ := findById_some host db id employee hfound
  obtain ⟨oid2, employee2, hcast2, hfound2, -, -, hstore⟩ :=
    disbursePay_ok host db id payNow saveNow payroll hok
  have hoid : oid2 = oid := by
    rw [hcast] at hcast2
    exact (Option.some.inj hcast2).symm
  subst hoid
  have hemp : employee2 = employee := by
    rw [hfind] at hfound2
    exact (Option.some.inj hfound2).symm
  subst hemp
  have hfound := hfind
  have hid := find_id db.employees oid2 employee2 hfound
  rw [hid] at hpast
  have hfound3 :
      (disbursePay host db id payNow saveNow).1.employees.find?
          (fun e => decide (e._id = oid2)) =
        some { employee2 with last_payroll_date := some saveNow } := by
    have hset := find_setLastPayrollDate oid2 saveNow db.employees employee2 hfound
    rw [hstore]
    simp only [hid] at hset ⊢
    exact hset
  have hempty : unpaidLogs (disbursePay host db id payNow saveNow).1
      { employee2 with last_payroll_date := some saveNow } = [] := by
    unfold unpaidLogs
    rw [hstore, List.filter_eq_nil_iff]
    intro log hmem hsel
    simp only [inUnpaidWindow, Bool.and_eq_true, decide_eq_true_eq, hid, unpaidFloor] at hsel
    obtain ⟨hlog, hdate⟩ := hsel
    cases hd : log.date with
    | none => simp [hd] at hdate
    | some d =>
      have hle := hpast log hmem hlog d hd
      simp [hd] at hdate
      exact absurd hdate (not_lt.mpr hle)
  rw [previewPay_of_found host _ id now oid2 _ hcast hfound3, hempty]
  refine ⟨_, rfl, ?_, ?_, rfl, ?_⟩
  · simp [previewOf, jsTotalHours, jsHours1, jsHours2, jsSum, JsNum.zero_add_zero]
  · simp [previewOf, jsDeductions, jsSum]
  · intro h1 h2
    have e1 : employee2.pay_rate1.toNumber.isFinite = true := h1
    have e2 : employee2.pay_rate2.toNumber.isFinite = true := h2
    simp [previewOf, jsNetPay, jsTotalPay, jsHours1, jsHours2, jsDeductions, jsSum,
      JsNum.zero_add_zero, JsNum.zero_sub_zero, JsNum.zero_mul_finite _ e1,
      JsNum.zero_mul_finite _ e2]

/-- Witness of C3, amended: both logs of the example store are dated before the
disbursement, and the preview that follows it reports zeros. -/
theorem preview_after_disburse_witness :
    ∃ preview,
      (previewPay utcHost (disbursePay utcHost exampleStore annId 1793836800000
          1793836800001).1 annId 1793836800002).2 = Response.ok preview ∧
      preview.totalHours = JsNum.fin 0 ∧ preview.deductions = JsNum.fin 0 ∧
      preview.lastPayDate = 1793836800001 ∧
      preview.totalPay = JsNum.fin 0 ∧ preview.netPay = JsNum.fin 0 := by
  obtain ⟨preview, h0, h1, h2, h3, h4⟩ :=
    preview_after_disburse utcHost exampleStore annId 1793836800000 1793836800001
      1793836800002 ann
      { employeeId := 1, totalHours := JsNum.fin 9, totalPay := JsNum.fin 110,
        deductions := JsNum.fin 2, netPay := JsNum.fin 108, payDate := 1793836800000 }
      (by decide!) (by decide!) (by decide!)
  obtain ⟨h5, h6⟩ := h4 (by decide!) (by decide!)
  exact ⟨preview, h0, h1, h2, h3, h5, h6⟩

/-! ### C4: what disburse changes -/

/-- C4: a successful disbursePay changes the store in exactly two ways: one new
Payroll record is appended, carrying the employee id, the computed totals and
the payDate read from the clock, and the last_payroll_date of that employee is
set to the clock reading; every other field of that employee, every other
employee, every work log and every earlier Payroll record is unchanged. -/
theorem disburse_frame (host : Host) (db : Store) (id : String) (payNow saveNow : Date)
    (payroll : Payroll)
    (hok : (disbursePay host db id payNow saveNow).2 = Response.ok payroll) :
    ∃ oid employee pre post,
      host.castObjectId id = some oid ∧
      payroll =
        { employeeId := oid
          totalHours :=
            (jsHours1 (unpaidLogs db employee)).add (jsHours2 (unpaidLogs db employee))
          totalPay :=
            ((jsHours1 (unpaidLogs db employee)).mul employee.pay_rate1.toNumber).add
              ((jsHours2 (unpaidLogs db employee)).mul employee.pay_rate2.toNumber)
          deductions := jsDeductions (unpaidLogs db employee)
          netPay :=
            (((jsHours1 (unpaidLogs db employee)).mul employee.pay_rate1.toNumber).add
              ((jsHours2 (unpaidLogs db employee)).mul employee.pay_rate2.toNumber)).sub
              (jsDeductions (unpaidLogs db employee))
          payDate := payNow } ∧
      db.employees = pre ++ employee :: post ∧ (∀ e ∈ pre, e._id ≠ oid) ∧ employee._id = oid ∧
      (disbursePay host db id payNow saveNow).1 =
        { employees := pre ++ { employee with last_payroll_date := some saveNow } :: post
          workLogs := db.workLogs
          payrolls := db.payrolls ++ [payroll] } := by
  obtain ⟨oid, employee, hcast, hfound, -, hpay, hstore⟩ :=
    disbursePay_ok host db id payNow saveNow payroll hok
  obtain ⟨pre, post, hsplit, hpre, hid, hset⟩ :=
    setLastPayrollDate_split oid saveNow db.employees employee hfound
  refine ⟨oid, employee, pre, post, hcast, ?_, hsplit, hpre, hid, ?_⟩
  · rw [hpay, ← hid]
    rfl
  · rw [hstore]
    simp only [hid] at hset ⊢
    rw [hset]

/-- Witness of C4: disbursing employee 1 on the example store succeeds, appends
the record (9, 110, 2, 108) and stamps the employee, and changes nothing else. -/
theorem disburse_frame_witness :
    disbursePay utcHost exampleStore annId 1793836800000 1793836800001 =
      ({ employees := [{ ann with last_payroll_date := some 1793836800001 }]
         workLogs := exampleStore.workLogs
         payrolls :=
           [{ employeeId := 1, totalHours := JsNum.fin 9, totalPay := JsNum.fin 110,
              deductions := JsNum.fin 2, netPay := JsNum.fin 108, payDate := 1793836800000 }] },
       Response.ok
         { employeeId := 1, totalHours := JsNum.fin 9, totalPay := JsNum.fin 110,
           deductions := JsNum.fin 2, netPay := JsNum.fin 108, payDate := 1793836800000 }) := by
  have hok : (disbursePay utcHost exampleStore annId 1793836800000 1793836800001).2 =
      Response.ok
        { employeeId := 1, totalHours := JsNum.fin 9, totalPay := JsNum.fin 110,
          deductions := JsNum.fin 2, netPay := JsNum.fin 108, payDate := 1793836800000 } := by
    decide!
  obtain ⟨oid, employee, pre, post, -, -, hsplit, -, -, hstore⟩ :=
    disburse_frame utcHost exampleStore annId 1793836800000 1793836800001 _ hok
  have hshape : pre = [] ∧ employee = ann ∧ post = [] := by
    cases pre with
    | nil =>
      have h : ann = employee ∧ post = [] := by simpa [exampleStore, eq_comm] using hsplit
      exact ⟨rfl, h.1.symm, h.2⟩
    | cons x xs => simp [exampleStore] at hsplit
  obtain ⟨rfl, rfl, rfl⟩ := hshape
  exact Prod.ext (by simpa using hstore) hok

/-! ### C5: preview is read-only -/

/-- C5: previewPay leaves the store unchanged, whether or not the employee
exists. -/
theorem preview_store_unchanged (host : Host) (db : Store) (id : String) (now : Date) :
    (previewPay host db id now).1 = db := by
  cases hcast : host.castObjectId id with
  | none => rw [previewPay_of_cast_failed host db id now hcast]
  | some oid =>
    cases hfound : db.employees.find? (fun e => decide (e._id = oid)) with
    | none => rw [previewPay_of_absent host db id now oid hcast hfound]
    | some employee => rw [previewPay_of_found host db id now oid employee hcast hfound]

/-! ### C6: not found -/

/-- Counterexample to C6: no employee of the example store has the id "abc",
yet both handlers answer 500 "Server error" for it, not 404. -/
theorem not_found_counterexample :
    (∀ e ∈ exampleStore.employees, utcHost.castObjectId "abc" ≠ some e._id) ∧
    previewPay utcHost exampleStore "abc" 1793836800000 =
      (exampleStore, Response.error 500 "Server error") ∧
    disbursePay utcHost exampleStore "abc" 1793836800000 1793836800001 =
      (exampleStore, Response.error 500 "Server error") := by
  refine ⟨?_, ?_, ?_⟩ <;> decide!

/-- C6, amended: previewPay and disbursePay each answer 404 "Employee not
found" if and only if the id is a well-formed ObjectId that no employee in the
store has, and then the store is unchanged; an id that is not a well-formed
ObjectId is answered with 500 "Server error", the store unchanged as well. -/
theorem not_found_iff_absent (host : Host) (db : Store) (id : String)
    (now payNow saveNow : Date) :
    ((previewPay host db id now).2 = Response.error 404 "Employee not found" ↔
      ∃ oid, host.castObjectId id = some oid ∧ ∀ e ∈ db.employees, e._id ≠ oid) ∧
    ((disbursePay host db id payNow saveNow).2 = Response.error 404 "Employee not found" ↔
      ∃ oid, host.castObjectId id = some oid ∧ ∀ e ∈ db.employees, e._id ≠ oid) ∧
    ((∃ oid, host.castObjectId id = some oid ∧ ∀ e ∈ db.employees, e._id ≠ oid) →
      (previewPay host db id now).1 = db ∧ (disbursePay host db id payNow saveNow).1 = db) ∧
    (host.castObjectId id = none →
      previewPay host db id now = (db, Response.error 500 "Server error") ∧
      disbursePay host db id payNow saveNow = (db, Response.error 500 "Server error")) := by
  cases hcast : host.castObjectId id with
  | none =>
    rw [previewPay_of_cast_failed host db id now hcast,
      disbursePay_of_cast_failed host db id payNow saveNow hcast]
    simp
  | some oid =>
    cases hfound : db.employees.find? (fun e => decide (e._id = oid)) with
    | none =>
      have habsent := (find_eq_none_iff db.employees oid).mp hfound
      rw [previewPay_of_absent host db id now oid hcast hfound,
        disbursePay_of_absent host db id payNow saveNow oid hcast hfound]
      exact ⟨⟨fun _ => ⟨oid, rfl, habsent⟩, fun _ => rfl⟩,
        ⟨fun _ => ⟨oid, rfl, habsent⟩, fun _ => rfl⟩, fun _ => ⟨rfl, rfl⟩,
        fun h => Option.noConfusion h⟩
    | some employee =>
      have hmem := List.mem_of_find?_eq_some hfound
      have hid := find_id db.employees oid employee hfound
      have hpresent : ¬ ∀ e ∈ db.employees, e._id ≠ oid := fun h => h employee hmem hid
      rw [previewPay_of_found host db id now oid employee hcast hfound,
        disbursePay_of_found host db id payNow saveNow oid employee hcast hfound]
      by_cases hnan : hasNaNTotal employee (unpaidLogs db employee) = true
      · rw [if_pos hnan]
        simp [hpresent]
      · rw [if_neg hnan]
        simp [hpresent]

/-- Witness of C6, amended: the well-formed id 7 is not in the example store,
and both handlers answer 404 there without touching the store. -/
theorem not_found_iff_absent_witness :
    previewPay utcHost exampleStore "000000000000000000000007" 1793836800000 =
      (exampleStore, Response.error 404 "Employee not found") ∧
    disbursePay utcHost exampleStore "000000000000000000000007" 1793836800000 1793836800001 =
      (exampleStore, Response.error 404 "Employee not found") := by
  obtain ⟨h1, h2, h3, -⟩ :=
    not_found_iff_absent utcHost exampleStore "000000000000000000000007" 1793836800000
      1793836800000 1793836800001
  have habsent : ∃ oid, utcHost.castObjectId "000000000000000000000007" = some oid ∧
      ∀ e ∈ exampleStore.employees, e._id ≠ oid := ⟨7, by decide!, by decide!⟩
  exact ⟨Prod.ext (h3 habsent).1 (h1.mpr habsent), Prod.ext (h3 habsent).2 (h2.mpr habsent)⟩

/-! ### C7: total expense -/

/-- C7: whenever the monthly report is returned, its totalExpense is the sum of
the netPay fields of the returned rows and the rows are one per selected
employee, in order; and it is returned whenever the selection does not throw
and the month window has valid dates. -/
theorem report_total_is_sum_of_netPay (host : Host) (db : Store) (query : ReportQuery) :
    (∀ report, (monthlyReport host db query).2 = Response.ok report →
      report.totalExpense = jsSum (report.results.map (fun row => row.netPay)) ∧
      ∃ employees, selectedEmployees host db query.employeeId = some employees ∧
        report.results.length = employees.length ∧
        report.results.map (fun row => row.employeeId) =
          employees.map (fun emp => emp._id)) ∧
    (∀ employees (startDate endDate : Date),
      selectedEmployees host db query.employeeId = some employees →
      monthWindow host query = (some startDate, some endDate) →
      ∃ report, (monthlyReport host db query).2 = Response.ok report) := by
  constructor
  · intro report hok
    cases hsel : selectedEmployees host db query.employeeId with
    | none =>
      rw [monthlyReport_of_cast_failed host db query hsel] at hok
      simp at hok
    | some employees =>
      cases hs : (monthWindow host query).1 with
      | none =>
        rw [monthlyReport_of_invalid host db query employees hsel (Or.inl hs)] at hok
        by_cases hnil : employees = []
        · rw [if_pos hnil] at hok
          have hrep : report = { results := [], totalExpense := JsNum.fin 0 } := by
            simpa [eq_comm] using hok
          subst hrep
          exact ⟨rfl, employees, rfl, by simp [hnil], by simp [hnil]⟩
        · rw [if_neg hnil] at hok
          simp at hok
      | some startDate =>
        cases he : (monthWindow host query).2 with
        | none =>
          rw [monthlyReport_of_invalid host db query employees hsel (Or.inr he)] at hok
          by_cases hnil : employees = []
          · rw [if_pos hnil] at hok
            have hrep : report = { results := [], totalExpense := JsNum.fin 0 } := by
              simpa [eq_comm] using hok
            subst hrep
            exact ⟨rfl, employees, rfl, by simp [hnil], by simp [hnil]⟩
          · rw [if_neg hnil] at hok
            simp at hok
        | some endDate =>
          have hwin : monthWindow host query = (some startDate, some endDate) :=
            Prod.ext hs he
          rw [monthlyReport_of_valid host db query employees startDate endDate hsel hwin] at hok
          have hrep := Response.ok.inj hok
          subst hrep
          refine ⟨rfl, employees, rfl, by simp, ?_⟩
          simp [List.map_map, Function.comp_def, reportRow]
  · intro employees startDate endDate hsel hwin
    rw [monthlyReport_of_valid host db query employees startDate endDate hsel hwin]
    exact ⟨_, rfl⟩

/-- Witness of C7: the February 2024 report over the example store has one row,
for employee 1, and its totalExpense 108 is the netPay of that row. -/
theorem report_total_is_sum_of_netPay_witness :
    (monthlyReport utcHost exampleStore februaryQuery).2 = Response.ok
      { results :=
          [{ employeeId := 1, name := some "Ann", role := some "clerk", month := 2,
             year := 2024, totalHours := JsNum.fin 9, totalPay := JsNum.fin 110,
             totalDeductions := JsNum.fin 2, netPay := JsNum.fin 108 }]
        totalExpense := JsNum.fin 108 } ∧
    JsNum.fin 108 = jsSum [JsNum.fin 108] := by
  have hok : (monthlyReport utcHost exampleStore februaryQuery).2 = Response.ok
      { results :=
          [{ employeeId := 1, name := some "Ann", role := some "clerk", month := 2,
             year := 2024, totalHours := JsNum.fin 9, totalPay := JsNum.fin 110,
             totalDeductions := JsNum.fin 2, netPay := JsNum.fin 108 }]
        totalExpense := JsNum.fin 108 } := by
    decide!
  exact ⟨hok,
    ((report_total_is_sum_of_netPay utcHost exampleStore februaryQuery).1 _ hok).1⟩

/-! ### C8: missing fields -/

/-- Counterexample to C8: with `hours_payrate1` missing from one log the
preview reports NaN for totalHours, totalPay and netPay and the disbursement is
aborted with 500 and writes nothing, while the same logs with the missing
field replaced by 0 give 9, 110, 2 and 108 in the preview and in the Payroll
record. -/
theorem zero_filled_totals_counterexample :
    (previewPay utcHost missingFieldStore annId 1793836800000).2 = Response.ok
      { totalHours := JsNum.nan, totalPay := JsNum.nan, deductions := JsNum.fin 2,
        netPay := JsNum.nan, lastPayDate := 1704067200000, previewDate := 1793836800000 } ∧
    (previewPay utcHost missingFieldStore.zeroFilled annId 1793836800000).2 = Response.ok
      { totalHours := JsNum.fin 9, totalPay := JsNum.fin 110, deductions := JsNum.fin 2,
        netPay := JsNum.fin 108, lastPayDate := 1704067200000,
        previewDate := 1793836800000 } ∧
    disbursePay utcHost missingFieldStore annId 1793836800000 1793836800001 =
      (missingFieldStore, Response.error 500 "Server error") ∧
    (disbursePay utcHost missingFieldStore.zeroFilled annId 1793836800000 1793836800001).2 =
      Response.ok
        { employeeId := 1, totalHours := JsNum.fin 9, totalPay := JsNum.fin 110,
          deductions := JsNum.fin 2, netPay := JsNum.fin 108, payDate := 1793836800000 } := by
  refine ⟨?_, ?_, ?_, ?_⟩ <;> decide!

/-- C8, amended: a selected work log that lacks hours_payrate1, hours_payrate2
or deduction is not counted as 0.  In the preview and in every row of a
returned monthly report a missing hours field makes totalHours, totalPay and
netPay NaN and a missing deduction makes deductions and netPay NaN, the
response still being a success; disbursePay is aborted with 500 "Server error"
and leaves the store unchanged. -/
theorem missing_field_gives_nan (host : Host) (db : Store) :
    (∀ (id : String) (now : Date) (employee : Employee),
      Employee.findById host db id = some (some employee) →
      ∃ preview, (previewPay host db id now).2 = Response.ok preview ∧
        ((∃ log ∈ unpaidLogs db employee,
            log.hours_payrate1 = Field.undefined ∨ log.hours_payrate2 = Field.undefined) →
          preview.totalHours = JsNum.nan ∧ preview.totalPay = JsNum.nan ∧
            preview.netPay = JsNum.nan) ∧
        ((∃ log ∈ unpaidLogs db employee, log.deduction = Field.undefined) →
          preview.deductions = JsNum.nan ∧ preview.netPay = JsNum.nan)) ∧
    (∀ (id : String) (payNow saveNow : Date) (employee : Employee),
      Employee.findById host db id = some (some employee) →
      (∃ log ∈ unpaidLogs db employee,
        log.hours_payrate1 = Field.undefined ∨ log.hours_payrate2 = Field.undefined ∨
          log.deduction = Field.undefined) →
      disbursePay host db id payNow saveNow = (db, Response.error 500 "Server error")) ∧
    (∀ (query : ReportQuery) (employees : List Employee) (k : Nat) (emp : Employee)
        (startDate endDate : Date),
      selectedEmployees host db query.employeeId = some employees →
      employees[k]? = some emp →
      monthWindow host query = (some startDate, some endDate) →
      ∃ report row, (monthlyReport host db query).2 = Response.ok report ∧
        report.results[k]? = some row ∧ row.employeeId = emp._id ∧
        ((∃ log ∈ monthLogs db startDate endDate emp,
            log.hours_payrate1 = Field.undefined ∨ log.hours_payrate2 = Field.undefined) →
          row.totalHours = JsNum.nan ∧ row.totalPay = JsNum.nan ∧ row.netPay = JsNum.nan) ∧
        ((∃ log ∈ monthLogs db startDate endDate emp, log.deduction = Field.undefined) →
          row.totalDeductions = JsNum.nan ∧ row.netPay = JsNum.nan)) := by
  refine ⟨?_, ?_, ?_⟩
  · intro id now employee hfind
    obtain ⟨oid, hcast, hfound⟩ := findById_some host db id employee hfind
    rw [previewPay_of_found host db id now oid employee hcast hfound]
    exact ⟨_, rfl, nan_totals_of_missing employee _⟩
  · intro id payNow saveNow employee hfind hmissing
    obtain ⟨oid, hcast, hfound⟩ := findById_some host db id employee hfind
    rw [disbursePay_of_found host db id payNow saveNow oid employee hcast hfound]
    have hnan : hasNaNTotal employee (unpaidLogs db employee) = true := by
      obtain ⟨log, hmem, h1 | h2 | h3⟩ := hmissing
      · have h := ((nan_totals_of_missing employee (unpaidLogs db employee)).1
          ⟨log, hmem, Or.inl h1⟩).2.2
        simp [hasNaNTotal, h, JsNum.isNaN]
      · have h := ((nan_totals_of_missing employee (unpaidLogs db employee)).1
          ⟨log, hmem, Or.inr h2⟩).2.2
        simp [hasNaNTotal, h, JsNum.isNaN]
      · have h := ((nan_totals_of_missing employee (unpaidLogs db employee)).2
          ⟨log, hmem, h3⟩).2
        simp [hasNaNTotal, h, JsNum.isNaN]
    rw [if_pos hnan]
  · intro query employees k emp startDate endDate hsel hk hwin
    rw [monthlyReport_of_valid host db query employees startDate endDate hsel hwin]
    refine ⟨_, reportRow db (orFallback query.month (host.getMonth + 1))
      (orFallback query.year host.getFullYear) startDate endDate emp, rfl, ?_, rfl, ?_⟩
    · simp only [List.getElem?_map, hk, Option.map_some']
    · exact nan_totals_of_missing emp _

/-- Witness of C8, amended: the February 2024 report over the store with a
missing `hours_payrate1` has a row for employee 1 whose totalHours, totalPay
and netPay are NaN. -/
theorem missing_field_gives_nan_witness :
    ∃ report row,
      (monthlyReport utcHost missingFieldStore februaryQuery).2 = Response.ok report ∧
      report.results[0]? = some row ∧ row.employeeId = 1 ∧
      row.totalHours = JsNum.nan ∧ row.totalPay = JsNum.nan ∧ row.netPay = JsNum.nan := by
  obtain ⟨report, row, h0, h1, h2, h3, -⟩ :=
    (missing_field_gives_nan utcHost missingFieldStore).2.2 februaryQuery [ann] 0 ann
      1706745600000 1709251199999 (by decide!) (by decide!) (by decide!)
  exact ⟨report, row, h0, h1, h2,
    h3 ⟨⟨some 1, some 1706832000000, Field.undefined, Field.val 4, Field.val 0⟩,
      by decide!, Or.inl rfl⟩⟩

/-! ### C9: the unpaid window -/

/-- C9: for an employee that exists, previewPay and disbursePay aggregate
exactly the work logs that name the employee and are dated strictly after the
bound B, the last_payroll_date of the employee or 2024-01-01 when it has none;
a log dated exactly B is excluded, no later date is, and previewPay returns B
as lastPayDate.  disbursePay returns the record aggregated over those logs
unless one of its totals is NaN, when the save is rejected and it answers 500. -/
theorem unpaid_window_selection (host : Host) (db : Store) (id : String)
    (now payNow saveNow : Date) (employee : Employee)
    (hfound : Employee.findById host db id = some (some employee)) :
    (∀ log, log ∈ db.workLogs.filter (inUnpaidWindow employee._id (unpaidFloor employee)) ↔
      log ∈ db.workLogs ∧ log.employeeId = some employee._id ∧
        ∃ d, log.date = some d ∧ unpaidFloor employee < d) ∧
    (∀ log, log.date = some (unpaidFloor employee) →
      log ∉ db.workLogs.filter (inUnpaidWindow employee._id (unpaidFloor employee))) ∧
    (previewPay host db id now).2 = Response.ok
      { totalHours :=
          jsTotalHours
            (db.workLogs.filter (inUnpaidWindow employee._id (unpaidFloor employee)))
        totalPay :=
          jsTotalPay employee
            (db.workLogs.filter (inUnpaidWindow employee._id (unpaidFloor employee)))
        deductions :=
          jsDeductions
            (db.workLogs.filter (inUnpaidWindow employee._id (unpaidFloor employee)))
        netPay :=
          jsNetPay employee
            (db.workLogs.filter (inUnpaidWindow employee._id (unpaidFloor employee)))
        lastPayDate := unpaidFloor employee
        previewDate := now } ∧
    (disbursePay host db id payNow saveNow).2 =
      (if hasNaNTotal employee
          (db.workLogs.filter (inUnpaidWindow employee._id (unpaidFloor employee))) = true then
        Response.error 500 "Server error"
      else
        Response.ok
          { employeeId := employee._id
            totalHours :=
              jsTotalHours
                (db.workLogs.filter (inUnpaidWindow employee._id (unpaidFloor employee)))
            totalPay :=
              jsTotalPay employee
                (db.workLogs.filter (inUnpaidWindow employee._id (unpaidFloor employee)))
            deductions :=
              jsDeductions
                (db.workLogs.filter (inUnpaidWindow employee._id (unpaidFloor employee)))
            netPay :=
              jsNetPay employee
                (db.workLogs.filter (inUnpaidWindow employee._id (unpaidFloor employee)))
            payDate := payNow }) := by
  obtain ⟨oid, hcast, hfind⟩ := findById_some host db id employee hfound
  refine ⟨?_, ?_, ?_, ?_⟩
  · intro log
    simp only [List.mem_filter, inUnpaidWindow, Bool.and_eq_true, decide_eq_true_eq]
    constructor
    · rintro ⟨hmem, hlog, hdate⟩
      refine ⟨hmem, hlog, ?_⟩
      cases hd : log.date with
      | none => simp [hd] at hdate
      | some d => exact ⟨d, rfl, by simpa [hd] using hdate⟩
    · rintro ⟨hmem, hlog, d, hd, hlt⟩
      exact ⟨hmem, hlog, by simp [hd, hlt]⟩
  · intro log hd hmem
    simp [List.mem_filter, inUnpaidWindow, hd] at hmem
  · rw [previewPay_of_found host db id now oid employee hcast hfind]
    rfl
  · rw [disbursePay_of_found host db id payNow saveNow oid employee hcast hfind]
    by_cases hnan : hasNaNTotal employee (unpaidLogs db employee) = true
    · have hnan2 : hasNaNTotal employee
          (db.workLogs.filter (inUnpaidWindow employee._id (unpaidFloor employee))) = true :=
        hnan
      rw [if_pos hnan, if_pos hnan2]
    · have hnan2 : ¬ hasNaNTotal employee
          (db.workLogs.filter (inUnpaidWindow employee._id (unpaidFloor employee))) = true :=
        hnan
      rw [if_neg hnan, if_neg hnan2]
      rfl

/-- Witness of C9: `bob` was last paid at 1706745600000; of his logs only the
one dated a millisecond later is aggregated, the preview returns the bound and
the disbursement returns the same totals. -/
theorem unpaid_window_selection_witness :
    windowStore.workLogs.filter (inUnpaidWindow 2 1706745600000) =
      [{ employeeId := some 2, date := some 1706745600001, hours_payrate1 := Field.val 3,
         hours_payrate2 := Field.val 1, deduction := Field.val 1 }] ∧
    (previewPay utcHost windowStore bobId 1793836800000).2 = Response.ok
      { totalHours := JsNum.fin 4
        totalPay := JsNum.fin 90
        deductions := JsNum.fin 1
        netPay := JsNum.fin 89
        lastPayDate := 1706745600000
        previewDate := 1793836800000 } ∧
    (disbursePay utcHost windowStore bobId 1793836800000 1793836800001).2 = Response.ok
      { employeeId := 2, totalHours := JsNum.fin 4, totalPay := JsNum.fin 90,
        deductions := JsNum.fin 1, netPay := JsNum.fin 89, payDate := 1793836800000 } := by
  obtain ⟨-, -, hpreview, hdisburse⟩ :=
    unpaid_window_selection utcHost windowStore bobId 1793836800000 1793836800000
      1793836800001 bob (by decide!)
  refine ⟨by decide!, ?_, ?_⟩
  · rw [hpreview]
    decide!
  · rw [hdisburse]
    decide!

/-! ### C10: report for an unknown employee -/

/-- Counterexample to C10: with the employeeId "abc", which is neither absent
nor "all" and matches no employee, the report answers 500 "Server error"; and
with an empty employeeId it reports on all employees. -/
theorem report_of_unknown_employee_counterexample :
    (∀ e ∈ exampleStore.employees, utcHost.castObjectId "abc" ≠ some e._id) ∧
    monthlyReport utcHost exampleStore ⟨some 2, some 2024, some "abc"⟩ =
      (exampleStore, Response.error 500 "Server error") ∧
    (∀ e ∈ exampleStore.employees, utcHost.castObjectId "" ≠ some e._id) ∧
    (monthlyReport utcHost exampleStore ⟨some 2, some 2024, some ""⟩).2 = Response.ok
      { results :=
          [{ employeeId := 1, name := some "Ann", role := some "clerk", month := 2,
             year := 2024, totalHours := JsNum.fin 9, totalPay := JsNum.fin 110,
             totalDeductions := JsNum.fin 2, netPay := JsNum.fin 108 }]
        totalExpense := JsNum.fin 108 } := by
  refine ⟨?_, ?_, ?_, ?_⟩ <;> decide!

/-- C10, amended: the monthly report asked for an employeeId that is not
empty, not "all", a well-formed ObjectId and matches no employee answers
successfully with no rows and a totalExpense of 0, whatever the month and
year. -/
theorem report_of_unknown_employee (host : Host) (db : Store) (month year : Option Int)
    (employeeId : String) (oid : ObjectId) (hempty : employeeId ≠ "")
    (hall : employeeId ≠ "all") (hcast : host.castObjectId employeeId = some oid)
    (habsent : ∀ e ∈ db.employees, e._id ≠ oid) :
    monthlyReport host db ⟨month, year, some employeeId⟩ =
      (db, Response.ok { results := [], totalExpense := JsNum.fin 0 }) := by
  have hnone := (find_eq_none_iff db.employees oid).mpr habsent
  simp [monthlyReport, Employee.findById, hempty, hall, hcast, hnone]

/-- Witness of C10, amended: the example store has no employee 7. -/
theorem report_of_unknown_employee_witness :
    monthlyReport utcHost exampleStore ⟨some 2, some 2024, some "000000000000000000000007"⟩ =
      (exampleStore, Response.ok { results := [], totalExpense := JsNum.fin 0 }) :=
  report_of_unknown_employee utcHost exampleStore (some 2) (some 2024)
    "000000000000000000000007" 7 (by decide!) (by decide!) (by decide!) (by decide!)

end PayrollServer
